import Mathlib

/-!
Verification of the Adaptive Pairwise Ranking Engine
(backend/app/routes/all_time.py).

Shallow embedding conventions:
* Python floats are modelled as real numbers (`ℝ`); `10 ** x` is `Real.rpow`.
* Python dicts (which preserve insertion order) are modelled as association
  lists `List (PlayerId × PlayerData)`.
* Python `set` of `frozenset` pairs is modelled as `Finset (Finset PlayerId)`.
* Fallible endpoints are modelled as `Except`-valued functions; the random
  share slugs / codes (`secrets.token_urlsafe`) are passed in as parameters.
-/

abbrev PlayerId := String

/-- Per-player entry of the `player_rankings` JSON dict: `{"score": float,
"wins": int, "losses": int}`. -/
structure PlayerData where
  score : ℝ
  wins : ℕ
  losses : ℕ

abbrev Scores := List (PlayerId × PlayerData)

/-- A row of the `AllTimeMatchupVote` table (restricted to one ranking). -/
structure Vote where
  player1_id : PlayerId
  player2_id : PlayerId
  winner_id : PlayerId
deriving DecidableEq

/-- The `AllTimeRanking` row (with its vote log attached). -/
structure Ranking where
  id : ℕ
  session_id : Option String
  ranking_size : ℤ
  player_rankings : Scores
  player_pool : List PlayerId
  is_complete : Bool
  matchups_completed : ℕ
  total_matchups : Option ℕ
  share_slug : Option String
  votes : List Vote

/-- Dictionary lookup `player_scores[pid]`; in all states produced by the
engine the key is present, so the default is never used. -/
def lookupD (scores : Scores) (pid : PlayerId) : PlayerData :=
  ((scores.find? (fun e => e.1 == pid)).map Prod.snd).getD ⟨1500, 0, 0⟩

/-- The function `compute_elo_update(winner_score, loser_score, k=32)` from
the source. -/
noncomputable def compute_elo_update (winner_score loser_score : ℝ) (k : ℝ := 32) : ℝ × ℝ :=
  let expected_winner : ℝ := 1 / (1 + (10 : ℝ) ^ ((loser_score - winner_score) / 400))
  let expected_loser : ℝ := 1 - expected_winner
  (winner_score + k * (1 - expected_winner), loser_score + k * (0 - expected_loser))

/-- All index pairs `(players[i], players[j])` with `i < j`, in the
enumeration order of the double loop in `get_next_matchup`. -/
def pairsList : List PlayerId → List (PlayerId × PlayerId)
  | [] => []
  | x :: xs => (xs.map fun y => (x, y)) ++ pairsList xs

/-- The `frozenset` built from a pair, as stored in `completed_pairs`. -/
def pairF (p : PlayerId × PlayerId) : Finset PlayerId := {p.1, p.2}

/-- Score difference `abs(score_i - score_j)` used by the selector. -/
noncomputable def diffOf (scores : Scores) (p : PlayerId × PlayerId) : ℝ :=
  |(lookupD scores p.1).score - (lookupD scores p.2).score|

/-- One iteration of the best-pair scan in `get_next_matchup`: skip
completed pairs, otherwise keep the pair iff it strictly improves the best
difference so far (`best_diff` starts at infinity, modelled by the
accumulator starting at `none`). -/
noncomputable def updateBest (scores : Scores) (completed : Finset (Finset PlayerId))
    (acc : Option ((PlayerId × PlayerId) × ℝ)) (p : PlayerId × PlayerId) :
    Option ((PlayerId × PlayerId) × ℝ) :=
  if pairF p ∈ completed then acc
  else
    match acc with
    | none => some (p, diffOf scores p)
    | some (q, d) => if diffOf scores p < d then some (p, diffOf scores p) else some (q, d)

/-- The function `get_next_matchup(player_scores, completed_pairs, ranking_size,
matchups_completed)` from the source.  The `matchups_completed` argument is
accepted and ignored, exactly as in the source. -/
noncomputable def get_next_matchup (player_scores : Scores)
    (completed_pairs : Finset (Finset PlayerId)) (ranking_size : ℤ)
    (matchups_completed : ℕ) : Option (PlayerId × PlayerId) :=
  let players := player_scores.map Prod.fst
  let n := players.length
  if ranking_size > 0 ∧ completed_pairs.card ≥ n * (n - 1) / 2 then none
  else ((pairsList players).foldl (updateBest player_scores completed_pairs) none).map Prod.fst

/-- The set of pair `frozenset` values built from a vote log, as in the
`completed_pairs` comprehension of `submit_vote`. -/
def votesPairs (vs : List Vote) : Finset (Finset PlayerId) :=
  (vs.map fun v => ({v.player1_id, v.player2_id} : Finset PlayerId)).toFinset

/-- The `completed_pairs` of a ranking, reconstructed from its vote log. -/
def completedPairs (r : Ranking) : Finset (Finset PlayerId) :=
  votesPairs r.votes

/-- The winner mutation: store the new score and increment the win counter
of one ratings entry. -/
def setWinner (scores : Scores) (pid : PlayerId) (ns : ℝ) : Scores :=
  scores.map fun e => if e.1 = pid then (e.1, ⟨ns, e.2.wins + 1, e.2.losses⟩) else e

/-- The loser mutation: store the new score and increment the loss counter
of one ratings entry. -/
def setLoser (scores : Scores) (pid : PlayerId) (ns : ℝ) : Scores :=
  scores.map fun e => if e.1 = pid then (e.1, ⟨ns, e.2.wins, e.2.losses + 1⟩) else e

/-- The rating/counter mutation block of `submit_vote` for one vote: derive
the loser from the recorded pair, apply `compute_elo_update`, then write the
winner fields followed by the loser fields (in source order). -/
noncomputable def applyVote (scores : Scores) (v : Vote) : Scores :=
  let loser := if v.player2_id = v.winner_id then v.player1_id else v.player2_id
  let ws := (lookupD scores v.winner_id).score
  let ls := (lookupD scores loser).score
  let upd := compute_elo_update ws ls
  setLoser (setWinner scores v.winner_id upd.1) loser upd.2

/-- Replay a vote log in insertion order from a starting ratings map. -/
noncomputable def replayVotes (init : Scores) (vs : List Vote) : Scores :=
  vs.foldl applyVote init

/-- Failure modes of `submit_vote` (HTTP 404/403/400 responses). -/
inductive VoteErr where
  | SessionNotFound
  | Forbidden
  | SessionAlreadyComplete
  | NoPendingMatchup
  | InvalidWinner
deriving DecidableEq

/-- Truthiness test of the ownership check of `submit_vote` (a `None` or
empty stored session id disables it; a stored id that differs from the
caller header fails it). -/
def ownerMismatch (owner caller : Option String) : Bool :=
  match owner with
  | none => false
  | some o => decide (o ≠ "") && decide (some o ≠ caller)

/-- The body of the `submit_vote` endpoint after the session row has been
fetched.  `fresh` stands for the slug `generate_share_slug()` would produce.
All validation failures are raised before any state is written, so a failure
returns the error with the session untouched. -/
noncomputable def submitVoteSession (r : Ranking) (caller : Option String)
    (winner_id : PlayerId) (fresh : String) : Except VoteErr Ranking :=
  if ownerMismatch r.session_id caller then .error .Forbidden
  else if r.is_complete then .error .SessionAlreadyComplete
  else
    match get_next_matchup r.player_rankings (completedPairs r) r.ranking_size
        r.matchups_completed with
    | none => .error .NoPendingMatchup
    | some p =>
      if winner_id ≠ p.1 ∧ winner_id ≠ p.2 then .error .InvalidWinner
      else
        let v : Vote := ⟨p.1, p.2, winner_id⟩
        let newScores := applyVote r.player_rankings v
        let votes2 := r.votes ++ [v]
        let np := get_next_matchup newScores (votesPairs votes2) r.ranking_size
          (r.matchups_completed + 1)
        .ok { r with
          player_rankings := newScores,
          matchups_completed := r.matchups_completed + 1,
          votes := votes2,
          is_complete := np.isNone,
          share_slug := if np.isNone then some fresh else r.share_slug }

/-- Session lookup by id, as in the `submit_vote` query. -/
def findRanking (store : List Ranking) (rid : ℕ) : Option Ranking :=
  store.find? (fun r => r.id == rid)

/-- The full `submit_vote` endpoint over a store of sessions. -/
noncomputable def submit_vote (store : List Ranking) (rid : ℕ)
    (caller : Option String) (winner_id : PlayerId) (fresh : String) :
    Except VoteErr (List Ranking) :=
  match findRanking store rid with
  | none => .error .SessionNotFound
  | some r =>
    (submitVoteSession r caller winner_id fresh).map
      (fun r2 => store.map fun s => if s.id = rid then r2 else s)

/-- The persisted effect of one `submit_vote` request: an exception raised
before `db.commit()` rolls the transaction back, leaving the store as it
was. -/
noncomputable def voteTxn (store : List Ranking) (rid : ℕ)
    (caller : Option String) (winner_id : PlayerId) (fresh : String) :
    List Ranking :=
  match submit_vote store rid caller winner_id fresh with
  | .error _ => store
  | .ok s => s

/-- First-occurrence deduplication, matching the key set and key order of a
Python dict comprehension over a list with possible repeats (the first
occurrence fixes the position; here all values are equal, so overwriting is
irrelevant). -/
def dedupKeep : List PlayerId → List PlayerId
  | [] => []
  | x :: xs => x :: dedupKeep (xs.filter fun y => y ≠ x)
termination_by l => l.length
decreasing_by
  simp only [List.length_cons]
  exact Nat.lt_succ_of_le (List.length_filter_le _ _)

/-- The initial ratings dict of `start_ranking`: score 1500.0, zero wins and
losses for every id of the pool (dict keys are deduplicated). -/
def initScores (player_ids : List PlayerId) : Scores :=
  (dedupKeep player_ids).map fun pid => (pid, ⟨1500, 0, 0⟩)

/-- A `CustomList` row. -/
structure CustomList where
  id : ℕ
  session_id : Option String
  name : String
  description : Option String
  player_ids : List PlayerId
  share_code : String
  is_public : Bool

/-- The request body of the start endpoint. -/
structure StartRequest where
  ranking_size : ℤ
  player_pool : Option (List PlayerId)
  custom_list_code : Option String

/-- Failure modes of `start_ranking` validation. -/
inductive StartErr where
  | BadSize
  | ListNotFound
  | InvalidPool
deriving DecidableEq

/-- Python truthiness of an optional string (`None` and the empty string are
falsy). -/
def truthyStr : Option String → Bool
  | none => false
  | some s => s ≠ ""

/-- Python truthiness of an optional list (`None` and the empty list are
falsy). -/
def truthyList : Option (List PlayerId) → Bool
  | none => false
  | some l => !l.isEmpty

/-- The pool-determination block of `start_ranking`: a truthy
`custom_list_code` wins, then a truthy `player_pool`, then the first
`ranking_size` items of the all-time catalog (the whole catalog when the
size is the unbounded sentinel 0). -/
def resolve_pool (catalog : List PlayerId) (lists : List CustomList)
    (req : StartRequest) : Except StartErr (List PlayerId) :=
  if truthyStr req.custom_list_code then
    match lists.find? (fun cl => some cl.share_code == req.custom_list_code) with
    | none => .error .ListNotFound
    | some cl => .ok cl.player_ids
  else if truthyList req.player_pool then .ok (req.player_pool.getD [])
  else
    let size := if req.ranking_size > 0 then req.ranking_size.toNat else catalog.length
    .ok (catalog.take size)

/-- The validation and record-creation part of `start_ranking`, up to the
`db.commit()` that persists the new session (the source raises a 500 after
the commit when no first matchup exists; the row is committed either way, so
every row this function returns can exist in the store). -/
def mkRanking (catalog : List PlayerId) (lists : List CustomList)
    (req : StartRequest) (sid : Option String) (newId : ℕ) :
    Except StartErr Ranking :=
  if req.ranking_size ∉ ([0, 10, 50, 100] : List ℤ) then .error .BadSize
  else
    match resolve_pool catalog lists req with
    | .error e => .error e
    | .ok player_ids =>
      if player_ids.length < 2 then .error .InvalidPool
      else
        let n := player_ids.length
        .ok { id := newId
              session_id := sid
              ranking_size := req.ranking_size
              player_rankings := initScores player_ids
              player_pool := player_ids
              is_complete := false
              matchups_completed := 0
              total_matchups := if req.ranking_size > 0 then some (n * (n - 1) / 2) else none
              share_slug := none
              votes := [] }

/-- The state mutation of the `complete_ranking` endpoint: force
`is_complete` and lazily assign a share slug. -/
def finalizeSession (r : Ranking) (generate_share_link : Bool) (fresh : String) :
    Ranking :=
  { r with
    is_complete := true
    share_slug :=
      if generate_share_link && r.share_slug.isNone then some fresh else r.share_slug }

/-- One accepted vote on a session. -/
def VoteStep (r r2 : Ranking) : Prop :=
  ∃ c w f, submitVoteSession r c w f = .ok r2

/-- Any state-mutating request on a session: an accepted vote or an explicit
finalization. -/
def SessionStep (r r2 : Ranking) : Prop :=
  VoteStep r r2 ∨ ∃ g f, r2 = finalizeSession r g f

/-- Sessions reachable from a freshly created row by votes and
finalizations. -/
def Reachable (r : Ranking) : Prop :=
  ∃ catalog lists req sid newId r0,
    mkRanking catalog lists req sid newId = .ok r0 ∧
    Relation.ReflTransGen SessionStep r0 r

/-- The request body of the create-list endpoint. -/
structure CreateListRequest where
  name : String
  description : Option String
  player_ids : List PlayerId
  is_public : Bool

/-- Failure modes of `create_custom_list`. -/
inductive ListErr where
  | TooFew
  | TooMany
  | InvalidPlayerIds
deriving DecidableEq

/-- The endpoint `create_custom_list`: reject fewer than 2 or more than 200 ids, then
reject unknown ids (set difference with the player table nonempty), else
store the list verbatim.  `code` stands for `generate_share_code()`. -/
def create_custom_list (validPlayers : List PlayerId) (req : CreateListRequest)
    (sid : Option String) (code : String) (newId : ℕ) :
    Except ListErr CustomList :=
  if req.player_ids.length < 2 then .error .TooFew
  else if req.player_ids.length > 200 then .error .TooMany
  else if (req.player_ids.filter fun p => !(validPlayers.contains p)) ≠ [] then
    .error .InvalidPlayerIds
  else
    .ok { id := newId
          session_id := sid
          name := req.name
          description := req.description
          player_ids := req.player_ids
          share_code := code
          is_public := req.is_public }

/-- The specification of the Matchup Selector asserted by C2, at one input:
a returned pair is an uncompleted pool pair of minimal absolute score
difference, it is the first minimizing pair in the enumeration order of the
scan, a `none` answer means every enumerated pair is completed, and the
selector is deterministic. -/
def selectorSpec (scores : Scores) (completed : Finset (Finset PlayerId))
    (rsize : ℤ) (m : ℕ) : Prop :=
  (∀ a b, get_next_matchup scores completed rsize m = some (a, b) →
    (a, b) ∈ pairsList (scores.map Prod.fst) ∧ pairF (a, b) ∉ completed ∧
    (∀ q ∈ pairsList (scores.map Prod.fst), pairF q ∉ completed →
      diffOf scores (a, b) ≤ diffOf scores q) ∧
    (∃ pre post, pairsList (scores.map Prod.fst) = pre ++ (a, b) :: post ∧
      ∀ q ∈ pre, pairF q ∉ completed → diffOf scores (a, b) < diffOf scores q)) ∧
  (get_next_matchup scores completed rsize m = none →
    ∀ q ∈ pairsList (scores.map Prod.fst), pairF q ∈ completed) ∧
  get_next_matchup scores completed rsize m = get_next_matchup scores completed rsize m

/-- The keys of a ranking's live ratings map. -/
def keysOf (r : Ranking) : List PlayerId := r.player_rankings.map Prod.fst

/-- The state invariant maintained by the engine for every persisted session
row. -/
structure SessionInv (r : Ranking) : Prop where
  keys_eq : keysOf r = dedupKeep r.player_pool
  count_eq : r.matchups_completed = (completedPairs r).card
  wf : ∀ t ∈ completedPairs r,
    ∃ a b, a ∈ keysOf r ∧ b ∈ keysOf r ∧ a ≠ b ∧ t = {a, b}
  replay_eq : replayVotes (initScores r.player_pool) r.votes = r.player_rankings

/-- The updated session row written by a successful vote. -/
noncomputable def votedRanking (r : Ranking) (p : PlayerId × PlayerId)
    (w : PlayerId) (f : String) : Ranking :=
  { r with
    player_rankings := applyVote r.player_rankings ⟨p.1, p.2, w⟩,
    matchups_completed := r.matchups_completed + 1,
    votes := r.votes ++ [⟨p.1, p.2, w⟩],
    is_complete := (get_next_matchup
      (applyVote r.player_rankings ⟨p.1, p.2, w⟩)
      (votesPairs (r.votes ++ [⟨p.1, p.2, w⟩])) r.ranking_size
      (r.matchups_completed + 1)).isNone,
    share_slug := if (get_next_matchup
      (applyVote r.player_rankings ⟨p.1, p.2, w⟩)
      (votesPairs (r.votes ++ [⟨p.1, p.2, w⟩])) r.ranking_size
      (r.matchups_completed + 1)).isNone then some f else r.share_slug }

/-- The failure/effect contract of one vote on a fetched session: each
failure mode holds exactly when its precondition fails (with the earlier
checks passing), and the vote applies exactly when no precondition fails. -/
noncomputable def VoteOutcomeSpec (r : Ranking) (c : Option String)
    (w : PlayerId) (f : String) : Prop :=
  (submitVoteSession r c w f = .error .Forbidden ↔
    ownerMismatch r.session_id c = true) ∧
  (submitVoteSession r c w f = .error .SessionAlreadyComplete ↔
    ownerMismatch r.session_id c = false ∧ r.is_complete = true) ∧
  (submitVoteSession r c w f = .error .NoPendingMatchup ↔
    ownerMismatch r.session_id c = false ∧ r.is_complete = false ∧
    get_next_matchup r.player_rankings (completedPairs r) r.ranking_size
      r.matchups_completed = none) ∧
  (submitVoteSession r c w f = .error .InvalidWinner ↔
    ownerMismatch r.session_id c = false ∧ r.is_complete = false ∧
    ∃ p, get_next_matchup r.player_rankings (completedPairs r) r.ranking_size
        r.matchups_completed = some p ∧ w ≠ p.1 ∧ w ≠ p.2) ∧
  (∀ r2, submitVoteSession r c w f = .ok r2 ↔
    ownerMismatch r.session_id c = false ∧ r.is_complete = false ∧
    ∃ p, get_next_matchup r.player_rankings (completedPairs r) r.ranking_size
        r.matchups_completed = some p ∧ (w = p.1 ∨ w = p.2) ∧
      r2 = votedRanking r p w f)

/-- Rounding to one decimal place for display.  (CPython rounds exact halves
to even; no claim under verification depends on the tie behavior, so the
standard mathematical rounding is used.) -/
noncomputable def round1 (x : ℝ) : ℝ := (round (10 * x) : ℤ) / 10

/-- One output entry of `compute_rankings_from_scores` (the display-only
name/team/position fields come from the external catalog and are outside the
engine). -/
structure RankingEntry where
  rank : ℕ
  player_id : PlayerId
  score : ℝ
  wins : ℕ
  losses : ℕ

/-- The sort key of the materializer: the score stored in the entry. -/
noncomputable def scoreKey (e : PlayerId × PlayerData) : ℝ := e.2.score

/-- Stable descending insertion by key: the new element goes in front of the
first element whose key is not larger, so earlier input elements stay in
front of later elements with an equal key — the behavior of Python's stable
descending sort. -/
noncomputable def insertDesc {α : Type} (key : α → ℝ) (x : α) :
    List α → List α
  | [] => [x]
  | y :: ys => if key y ≤ key x then x :: y :: ys else y :: insertDesc key x ys

/-- Stable sort, descending by key. -/
noncomputable def sortDesc {α : Type} (key : α → ℝ) (l : List α) : List α :=
  l.foldr (insertDesc key) []

/-- The materializer `compute_rankings_from_scores`: sort the ratings items by score
descending (stable), then emit entries with 1-based rank, player id, score
rounded to one decimal, wins and losses. -/
noncomputable def compute_rankings_from_scores (player_scores : Scores) :
    List RankingEntry :=
  ((sortDesc scoreKey player_scores).enum).map fun ie =>
    { rank := ie.1 + 1, player_id := ie.2.1, score := round1 ie.2.2.score,
      wins := ie.2.2.wins, losses := ie.2.2.losses }

/-- Insertion for the specification-side order of C8: strictly lexicographic
by (descending score, ascending original position). -/
noncomputable def insertLexDesc {α : Type} (key : α → ℝ) (x : ℕ × α) :
    List (ℕ × α) → List (ℕ × α)
  | [] => [x]
  | y :: ys =>
    if key y.2 < key x.2 ∨ (key x.2 = key y.2 ∧ x.1 < y.1) then x :: y :: ys
    else y :: insertLexDesc key x ys

/-- Sort of position-annotated elements, lexicographic by (descending key,
ascending position). -/
noncomputable def sortLexDesc {α : Type} (key : α → ℝ) (l : List (ℕ × α)) :
    List (ℕ × α) :=
  l.foldr (insertLexDesc key) []

/-- The Ranking Materializer as worded by the spec: annotate each ratings
entry with its original position, order by descending score breaking ties by
ascending original position, and emit 1-based ranks with the rounded score
and the win/loss counters. -/
noncomputable def specRankings (player_scores : Scores) : List RankingEntry :=
  (((sortLexDesc scoreKey player_scores.enum).map Prod.snd).enum).map fun ie =>
    { rank := ie.1 + 1, player_id := ie.2.1, score := round1 ie.2.2.score,
      wins := ie.2.2.wins, losses := ie.2.2.losses }

/-- The initial state of an unbounded 2-player session (`ranking_size = 0`,
explicit pool of "A" and "B"). -/
noncomputable def twoR0 : Ranking :=
  { id := 1, session_id := none, ranking_size := 0,
    player_rankings := [("A", ⟨1500, 0, 0⟩), ("B", ⟨1500, 0, 0⟩)],
    player_pool := ["A", "B"], is_complete := false, matchups_completed := 0,
    total_matchups := none, share_slug := none, votes := [] }

/-- The same session after the single vote "A beats B". -/
noncomputable def twoR1 : Ranking :=
  { id := 1, session_id := none, ranking_size := 0,
    player_rankings := [("A", ⟨1516, 1, 0⟩), ("B", ⟨1484, 0, 1⟩)],
    player_pool := ["A", "B"], is_complete := true, matchups_completed := 1,
    total_matchups := none, share_slug := some "s1",
    votes := [⟨"A", "B", "A"⟩] }

noncomputable def sc0 : Scores :=
  [("A", ⟨1500, 0, 0⟩), ("B", ⟨1500, 0, 0⟩), ("C", ⟨1500, 0, 0⟩), ("D", ⟨1500, 0, 0⟩)]

noncomputable def sc1 : Scores :=
  [("A", ⟨1516, 1, 0⟩), ("B", ⟨1484, 0, 1⟩), ("C", ⟨1500, 0, 0⟩), ("D", ⟨1500, 0, 0⟩)]

noncomputable def sc2 : Scores :=
  [("A", ⟨1516, 1, 0⟩), ("B", ⟨1484, 0, 1⟩), ("C", ⟨1516, 1, 0⟩), ("D", ⟨1484, 0, 1⟩)]

noncomputable def sc3 : Scores :=
  [("A", ⟨1532, 2, 0⟩), ("B", ⟨1484, 0, 1⟩), ("C", ⟨1500, 1, 1⟩), ("D", ⟨1484, 0, 1⟩)]

noncomputable def sc4 : Scores :=
  [("A", ⟨1532, 2, 0⟩), ("B", ⟨1500, 1, 1⟩), ("C", ⟨1500, 1, 1⟩), ("D", ⟨1468, 0, 2⟩)]

noncomputable def sc5 : Scores :=
  [("A", ⟨1532, 2, 0⟩), ("B", ⟨1516, 2, 1⟩), ("C", ⟨1484, 1, 2⟩), ("D", ⟨1468, 0, 2⟩)]

def vs1 : List Vote := [⟨"A", "B", "A"⟩]

def vs2 : List Vote := vs1 ++ [⟨"C", "D", "C"⟩]

def vs3 : List Vote := vs2 ++ [⟨"A", "C", "A"⟩]

def vs4 : List Vote := vs3 ++ [⟨"B", "D", "B"⟩]

def vs5 : List Vote := vs4 ++ [⟨"B", "C", "B"⟩]

def vs6 : List Vote := vs5 ++ [⟨"A", "D", "A"⟩]

/-- Template for the states of a bounded 4-player session under the votes "A
beats B", "C beats D", "A beats C", "B beats D", "B beats C", "A beats D"
(each matching the selector chosen pair at that point). -/
noncomputable def fourState (scores : Scores) (m : ℕ) (complete : Bool)
    (slug : Option String) (vs : List Vote) : Ranking :=
  { id := 2, session_id := none, ranking_size := 10,
    player_rankings := scores, player_pool := ["A", "B", "C", "D"],
    is_complete := complete, matchups_completed := m, total_matchups := some 6,
    share_slug := slug, votes := vs }

noncomputable def fourR0 : Ranking := fourState sc0 0 false none []

noncomputable def fourR1 : Ranking := fourState sc1 1 false none vs1

noncomputable def fourR2 : Ranking := fourState sc2 2 false none vs2

noncomputable def fourR3 : Ranking := fourState sc3 3 false none vs3

noncomputable def fourR4 : Ranking := fourState sc4 4 false none vs4

noncomputable def fourR5 : Ranking := fourState sc5 5 false none vs5

noncomputable def fourR6 : Ranking :=
  fourState (applyVote sc5 ⟨"A", "D", "A"⟩) 6 true (some "s6") vs6

noncomputable def c2scores : Scores :=
  [("A", ⟨1500, 0, 0⟩), ("B", ⟨1490, 0, 0⟩), ("C", ⟨1510, 0, 0⟩)]

lemma updateBest_mem (s : Scores) (c : Finset (Finset PlayerId)) {p}
    (h : pairF p ∈ c) (acc) : updateBest s c acc p = acc := by
  simp [updateBest, h]

lemma updateBest_eq_none_iff (s : Scores) (c : Finset (Finset PlayerId)) (acc p) :
    updateBest s c acc p = none ↔ acc = none ∧ pairF p ∈ c := by
  by_cases h : pairF p ∈ c
  · simp [updateBest, h]
  · cases acc with
    | none => simp [updateBest, h]
    | some a =>
      obtain ⟨q, d⟩ := a
      by_cases hlt : diffOf s p < d <;> simp [updateBest, h, hlt]

lemma scan_none_iff (s : Scores) (c : Finset (Finset PlayerId)) :
    ∀ (l : List (PlayerId × PlayerId)) acc,
      l.foldl (updateBest s c) acc = none ↔ acc = none ∧ ∀ p ∈ l, pairF p ∈ c := by
  intro l
  induction l with
  | nil => intro acc; simp
  | cons x xs ih =>
    intro acc
    rw [List.foldl_cons, ih, updateBest_eq_none_iff]
    constructor
    · rintro ⟨⟨h1, h2⟩, h3⟩
      exact ⟨h1, by
        intro p hp
        rcases List.mem_cons.1 hp with h | h
        · exact h ▸ h2
        · exact h3 p h⟩
    · rintro ⟨h1, h2⟩
      exact ⟨⟨h1, h2 x (List.mem_cons_self x xs)⟩, fun p hp => h2 p (List.mem_cons_of_mem x hp)⟩

lemma updateBest_inv (s : Scores) (c : Finset (Finset PlayerId)) {acc p}
    (hacc : ∀ q e, acc = some (q, e) → e = diffOf s q) :
    ∀ q e, updateBest s c acc p = some (q, e) → e = diffOf s q := by
  intro q e
  by_cases h : pairF p ∈ c
  · rw [updateBest_mem s c h]; exact hacc q e
  · cases acc with
    | none =>
      intro heq
      simp only [updateBest, if_neg h, Option.some.injEq, Prod.mk.injEq] at heq
      obtain ⟨rfl, rfl⟩ := heq
      rfl
    | some a =>
      obtain ⟨q0, d0⟩ := a
      by_cases hlt : diffOf s p < d0
      · intro heq
        simp only [updateBest, if_neg h, if_pos hlt, Option.some.injEq,
          Prod.mk.injEq] at heq
        obtain ⟨rfl, rfl⟩ := heq
        rfl
      · intro heq
        simp only [updateBest, if_neg h, if_neg hlt, Option.some.injEq,
          Prod.mk.injEq] at heq
        obtain ⟨rfl, rfl⟩ := heq
        exact hacc q0 d0 rfl

lemma scan_diff (s : Scores) (c : Finset (Finset PlayerId)) :
    ∀ (l : List (PlayerId × PlayerId)) acc,
      (∀ q e, acc = some (q, e) → e = diffOf s q) →
      ∀ p d, l.foldl (updateBest s c) acc = some (p, d) → d = diffOf s p := by
  intro l
  induction l with
  | nil =>
    intro acc hacc p d h
    exact hacc p d h
  | cons x xs ih =>
    intro acc hacc p d h
    rw [List.foldl_cons] at h
    exact ih _ (updateBest_inv s c hacc) p d h

lemma scan_min (s : Scores) (c : Finset (Finset PlayerId)) :
    ∀ (l : List (PlayerId × PlayerId)) b db p d,
      l.foldl (updateBest s c) (some (b, db)) = some (p, d) →
      d ≤ db ∧ ∀ q ∈ l, pairF q ∉ c → d ≤ diffOf s q := by
  intro l
  induction l with
  | nil =>
    intro b db p d h
    simp only [List.foldl_nil, Option.some.injEq, Prod.mk.injEq] at h
    obtain ⟨rfl, rfl⟩ := h
    exact ⟨le_refl _, by simp⟩
  | cons x xs ih =>
    intro b db p d h
    rw [List.foldl_cons] at h
    by_cases hx : pairF x ∈ c
    · rw [updateBest_mem s c hx] at h
      obtain ⟨h1, h2⟩ := ih b db p d h
      refine ⟨h1, ?_⟩
      intro q hq hqc
      rcases List.mem_cons.1 hq with hq | hq
      · exact absurd (hq ▸ hx) hqc
      · exact h2 q hq hqc
    · by_cases hlt : diffOf s x < db
      · rw [show updateBest s c (some (b, db)) x = some (x, diffOf s x) by
          simp [updateBest, hx, hlt]] at h
        obtain ⟨h1, h2⟩ := ih x (diffOf s x) p d h
        refine ⟨le_of_lt (lt_of_le_of_lt h1 hlt), ?_⟩
        intro q hq hqc
        rcases List.mem_cons.1 hq with hq | hq
        · exact hq ▸ h1
        · exact h2 q hq hqc
      · rw [show updateBest s c (some (b, db)) x = some (b, db) by
          simp [updateBest, hx, hlt]] at h
        obtain ⟨h1, h2⟩ := ih b db p d h
        refine ⟨h1, ?_⟩
        intro q hq hqc
        rcases List.mem_cons.1 hq with hq | hq
        · exact hq ▸ le_trans h1 (not_lt.1 hlt)
        · exact h2 q hq hqc

lemma scan_min_none (s : Scores) (c : Finset (Finset PlayerId)) :
    ∀ (l : List (PlayerId × PlayerId)) p d,
      l.foldl (updateBest s c) none = some (p, d) →
      ∀ q ∈ l, pairF q ∉ c → d ≤ diffOf s q := by
  intro l
  induction l with
  | nil => intro p d h; cases h
  | cons x xs ih =>
    intro p d h q hq hqc
    rw [List.foldl_cons] at h
    by_cases hx : pairF x ∈ c
    · rw [updateBest_mem s c hx] at h
      rcases List.mem_cons.1 hq with hq | hq
      · exact absurd (hq ▸ hx) hqc
      · exact ih p d h q hq hqc
    · rw [show updateBest s c none x = some (x, diffOf s x) by simp [updateBest, hx]] at h
      obtain ⟨h1, h2⟩ := scan_min s c xs x (diffOf s x) p d h
      rcases List.mem_cons.1 hq with hq | hq
      · exact hq ▸ h1
      · exact h2 q hq hqc

lemma scan_first_acc (s : Scores) (c : Finset (Finset PlayerId)) :
    ∀ (l : List (PlayerId × PlayerId)) b db p d,
      l.foldl (updateBest s c) (some (b, db)) = some (p, d) →
      (p = b ∧ d = db) ∨
      (∃ pre post, l = pre ++ p :: post ∧ pairF p ∉ c ∧ d < db ∧
        ∀ q ∈ pre, pairF q ∉ c → d < diffOf s q) := by
  intro l
  induction l with
  | nil =>
    intro b db p d h
    simp only [List.foldl_nil, Option.some.injEq, Prod.mk.injEq] at h
    obtain ⟨rfl, rfl⟩ := h
    exact Or.inl ⟨rfl, rfl⟩
  | cons x xs ih =>
    intro b db p d h
    rw [List.foldl_cons] at h
    by_cases hx : pairF x ∈ c
    · rw [updateBest_mem s c hx] at h
      rcases ih b db p d h with h1 | ⟨pre, post, hsplit, hunc, hlt, hall⟩
      · exact Or.inl h1
      · refine Or.inr ⟨x :: pre, post, by rw [hsplit]; rfl, hunc, hlt, ?_⟩
        intro q hq hqc
        rcases List.mem_cons.1 hq with hq | hq
        · exact absurd (hq ▸ hx) hqc
        · exact hall q hq hqc
    · by_cases hlt0 : diffOf s x < db
      · rw [show updateBest s c (some (b, db)) x = some (x, diffOf s x) by
          simp [updateBest, hx, hlt0]] at h
        rcases ih x (diffOf s x) p d h with ⟨h1, h2⟩ | ⟨pre, post, hsplit, hunc, hlt, hall⟩
        · exact Or.inr ⟨[], xs, by simp [h1], h1 ▸ hx, h2 ▸ hlt0, by simp⟩
        · refine Or.inr ⟨x :: pre, post, by rw [hsplit]; rfl, hunc,
            lt_trans hlt hlt0, ?_⟩
          intro q hq hqc
          rcases List.mem_cons.1 hq with hq | hq
          · exact hq ▸ hlt
          · exact hall q hq hqc
      · rw [show updateBest s c (some (b, db)) x = some (b, db) by
          simp [updateBest, hx, hlt0]] at h
        rcases ih b db p d h with h1 | ⟨pre, post, hsplit, hunc, hlt, hall⟩
        · exact Or.inl h1
        · refine Or.inr ⟨x :: pre, post, by rw [hsplit]; rfl, hunc, hlt, ?_⟩
          intro q hq hqc
          rcases List.mem_cons.1 hq with hq | hq
          · exact hq ▸ lt_of_lt_of_le hlt (not_lt.1 hlt0)
          · exact hall q hq hqc

lemma scan_first_none (s : Scores) (c : Finset (Finset PlayerId)) :
    ∀ (l : List (PlayerId × PlayerId)) p d,
      l.foldl (updateBest s c) none = some (p, d) →
      ∃ pre post, l = pre ++ p :: post ∧ pairF p ∉ c ∧
        ∀ q ∈ pre, pairF q ∉ c → d < diffOf s q := by
  intro l
  induction l with
  | nil => intro p d h; cases h
  | cons x xs ih =>
    intro p d h
    rw [List.foldl_cons] at h
    by_cases hx : pairF x ∈ c
    · rw [updateBest_mem s c hx] at h
      obtain ⟨pre, post, hsplit, hunc, hall⟩ := ih p d h
      refine ⟨x :: pre, post, by rw [hsplit]; rfl, hunc, ?_⟩
      intro q hq hqc
      rcases List.mem_cons.1 hq with hq | hq
      · exact absurd (hq ▸ hx) hqc
      · exact hall q hq hqc
    · rw [show updateBest s c none x = some (x, diffOf s x) by simp [updateBest, hx]] at h
      rcases scan_first_acc s c xs x (diffOf s x) p d h with ⟨h1, h2⟩ |
        ⟨pre, post, hsplit, hunc, hlt, hall⟩
      · exact ⟨[], xs, by simp [h1], h1 ▸ hx, by simp⟩
      · refine ⟨x :: pre, post, by rw [hsplit]; rfl, hunc, ?_⟩
        intro q hq hqc
        rcases List.mem_cons.1 hq with hq | hq
        · exact hq ▸ hlt
        · exact hall q hq hqc

lemma mem_pairsList : ∀ {l : List PlayerId} {a b : PlayerId},
    (a, b) ∈ pairsList l → a ∈ l ∧ b ∈ l := by
  intro l
  induction l with
  | nil => intro a b h; cases h
  | cons x xs ih =>
    intro a b h
    rcases List.mem_append.1 h with h | h
    · obtain ⟨y, hy, heq⟩ := List.mem_map.1 h
      obtain ⟨rfl, rfl⟩ := Prod.mk.injEq _ _ _ _ ▸ heq
      exact ⟨List.mem_cons_self _ _, List.mem_cons_of_mem _ hy⟩
    · obtain ⟨h1, h2⟩ := ih h
      exact ⟨List.mem_cons_of_mem _ h1, List.mem_cons_of_mem _ h2⟩

lemma pairsList_ne : ∀ {l : List PlayerId}, l.Nodup → ∀ {a b : PlayerId},
    (a, b) ∈ pairsList l → a ≠ b := by
  intro l
  induction l with
  | nil => intro _ a b h; cases h
  | cons x xs ih =>
    intro hnd a b h
    rcases List.mem_append.1 h with h | h
    · obtain ⟨y, hy, heq⟩ := List.mem_map.1 h
      obtain ⟨rfl, rfl⟩ := Prod.mk.injEq _ _ _ _ ▸ heq
      exact fun hab => (List.nodup_cons.1 hnd).1 (hab ▸ hy)
    · exact ih (List.nodup_cons.1 hnd).2 h

lemma pairsList_total : ∀ {l : List PlayerId} {a b : PlayerId},
    a ∈ l → b ∈ l → a ≠ b → (a, b) ∈ pairsList l ∨ (b, a) ∈ pairsList l := by
  intro l
  induction l with
  | nil => intro a b h; cases h
  | cons x xs ih =>
    intro a b ha hb hne
    by_cases hax : a = x
    · subst hax
      have hb2 : b ∈ xs := by
        rcases List.mem_cons.1 hb with h | h
        · exact absurd h.symm hne
        · exact h
      exact Or.inl (List.mem_append.2 (Or.inl (List.mem_map.2 ⟨b, hb2, rfl⟩)))
    · by_cases hbx : b = x
      · subst hbx
        have ha2 : a ∈ xs := by
          rcases List.mem_cons.1 ha with h | h
          · exact absurd h hax
          · exact h
        exact Or.inr (List.mem_append.2 (Or.inl (List.mem_map.2 ⟨a, ha2, rfl⟩)))
      · have ha2 : a ∈ xs := by
          rcases List.mem_cons.1 ha with h | h
          · exact absurd h hax
          · exact h
        have hb2 : b ∈ xs := by
          rcases List.mem_cons.1 hb with h | h
          · exact absurd h hbx
          · exact h
        rcases ih ha2 hb2 hne with h | h
        · exact Or.inl (List.mem_append.2 (Or.inr h))
        · exact Or.inr (List.mem_append.2 (Or.inr h))

lemma length_pairsList : ∀ (l : List PlayerId),
    (pairsList l).length = l.length.choose 2 := by
  intro l
  induction l with
  | nil => rfl
  | cons x xs ih =>
    simp only [pairsList, List.length_append, List.length_map, ih,
      List.length_cons]
    rw [show xs.length + 1 = xs.length + 1 from rfl, Nat.choose_succ_succ,
      Nat.choose_one_right, Nat.add_comm]

lemma nodup_pairsF : ∀ {l : List PlayerId}, l.Nodup →
    ((pairsList l).map pairF).Nodup := by
  intro l
  induction l with
  | nil => intro _; simp [pairsList]
  | cons x xs ih =>
    intro hnd
    obtain ⟨hx, hxs⟩ := List.nodup_cons.1 hnd
    simp only [pairsList, List.map_append, List.map_map]
    refine List.Nodup.append ?_ (ih hxs) ?_
    · refine List.Nodup.map_on ?_ hxs
      intro y hy z hz heq
      simp only [Function.comp_apply, pairF] at heq
      have hyz : y ∈ ({x, z} : Finset PlayerId) := by
        rw [← heq]; simp
      rcases Finset.mem_insert.1 hyz with h | h
      · exact absurd (h ▸ hy) hx
      · exact Finset.mem_singleton.1 h
    · intro t ht ht2
      obtain ⟨y, hy, heq⟩ := List.mem_map.1 ht
      obtain ⟨q, hq, heq2⟩ := List.mem_map.1 ht2
      obtain ⟨hq1, hq2⟩ := mem_pairsList hq
      have hx1 : x ∈ t := by
        rw [← heq]; simp [Function.comp_apply, pairF]
      rw [← heq2] at hx1
      simp only [pairF, Finset.mem_insert, Finset.mem_singleton] at hx1
      rcases hx1 with rfl | rfl
      · exact hx hq1
      · exact hx hq2

lemma pairF_mem_powersetCard {keys : List PlayerId} (h : keys.Nodup)
    {p : PlayerId × PlayerId} (hp : p ∈ pairsList keys) :
    pairF p ∈ Finset.powersetCard 2 keys.toFinset := by
  obtain ⟨a, b⟩ := p
  obtain ⟨h1, h2⟩ := mem_pairsList hp
  have hne := pairsList_ne h hp
  rw [Finset.mem_powersetCard]
  constructor
  · intro z hz
    simp only [pairF, Finset.mem_insert, Finset.mem_singleton] at hz
    rcases hz with rfl | rfl
    · exact List.mem_toFinset.2 h1
    · exact List.mem_toFinset.2 h2
  · simp only [pairF]
    exact Finset.card_pair hne

lemma wf_subset_powersetCard {keys : List PlayerId}
    {c : Finset (Finset PlayerId)}
    (hwf : ∀ t ∈ c, ∃ a b, a ∈ keys ∧ b ∈ keys ∧ a ≠ b ∧ t = {a, b}) :
    c ⊆ Finset.powersetCard 2 keys.toFinset := by
  intro t ht
  obtain ⟨a, b, ha, hb, hne, rfl⟩ := hwf t ht
  rw [Finset.mem_powersetCard]
  constructor
  · intro z hz
    rcases Finset.mem_insert.1 hz with rfl | hz
    · exact List.mem_toFinset.2 ha
    · exact List.mem_toFinset.2 (Finset.mem_singleton.1 hz ▸ hb)
  · exact Finset.card_pair hne

lemma card_powersetCard_keys {keys : List PlayerId} (h : keys.Nodup) :
    (Finset.powersetCard 2 keys.toFinset).card = keys.length.choose 2 := by
  rw [Finset.card_powersetCard, List.toFinset_card_of_nodup h]

lemma all_completed_of_card {keys : List PlayerId} (h : keys.Nodup)
    {c : Finset (Finset PlayerId)}
    (hwf : ∀ t ∈ c, ∃ a b, a ∈ keys ∧ b ∈ keys ∧ a ≠ b ∧ t = {a, b})
    (hcard : keys.length * (keys.length - 1) / 2 ≤ c.card) :
    ∀ p ∈ pairsList keys, pairF p ∈ c := by
  intro p hp
  have hsub := wf_subset_powersetCard hwf
  have heq : c = Finset.powersetCard 2 keys.toFinset := by
    apply Finset.eq_of_subset_of_card_le hsub
    rw [card_powersetCard_keys h, Nat.choose_two_right]
    exact hcard
  rw [heq]
  exact pairF_mem_powersetCard h hp

lemma card_completed_le {keys : List PlayerId} (h : keys.Nodup)
    {c : Finset (Finset PlayerId)}
    (hwf : ∀ t ∈ c, ∃ a b, a ∈ keys ∧ b ∈ keys ∧ a ≠ b ∧ t = {a, b}) :
    c.card ≤ keys.length.choose 2 := by
  calc c.card ≤ (Finset.powersetCard 2 keys.toFinset).card :=
        Finset.card_le_card (wf_subset_powersetCard hwf)
    _ = keys.length.choose 2 := card_powersetCard_keys h

lemma exists_uncompleted {keys : List PlayerId} (h : keys.Nodup)
    {c : Finset (Finset PlayerId)}
    (hcard : c.card < keys.length.choose 2) :
    ∃ p ∈ pairsList keys, pairF p ∉ c := by
  by_contra hall
  push_neg at hall
  have hsub : ((pairsList keys).map pairF).toFinset ⊆ c := by
    intro t ht
    obtain ⟨p, hp, rfl⟩ := List.mem_map.1 (List.mem_toFinset.1 ht)
    exact hall p hp
  have hc : keys.length.choose 2 ≤ c.card := by
    calc keys.length.choose 2 = ((pairsList keys).map pairF).length := by
          rw [List.length_map, length_pairsList]
      _ = ((pairsList keys).map pairF).toFinset.card :=
          (List.toFinset_card_of_nodup (nodup_pairsF h)).symm
      _ ≤ c.card := Finset.card_le_card hsub
  exact absurd hc (not_le.2 hcard)

/-- C2: for every ratings map (distinct keys, as for a Python dict) and
every set of completed pairs drawn from the pool, the Matchup Selector
returns, among the unordered pairs not in `completed_pairs`, a pair of
smallest absolute score difference, ties broken in favor of the first such
pair in the fixed enumeration order; two invocations on identical inputs
agree. -/
theorem c2_matchup_selector (scores : Scores)
    (completed : Finset (Finset PlayerId)) (rsize : ℤ) (m : ℕ)
    (hnd : (scores.map Prod.fst).Nodup)
    (hwf : ∀ t ∈ completed, ∃ a b, a ∈ scores.map Prod.fst ∧
      b ∈ scores.map Prod.fst ∧ a ≠ b ∧ t = {a, b}) :
    selectorSpec scores completed rsize m := by
  by_cases hcond : rsize > 0 ∧
      completed.card ≥ (scores.map Prod.fst).length *
        ((scores.map Prod.fst).length - 1) / 2
  · have hnone : get_next_matchup scores completed rsize m = none := by
      simp only [get_next_matchup, if_pos hcond]
    refine ⟨?_, ?_, rfl⟩
    · intro a b h
      rw [hnone] at h
      cases h
    · intro _
      exact all_completed_of_card hnd hwf hcond.2
  · have hform : get_next_matchup scores completed rsize m =
        ((pairsList (scores.map Prod.fst)).foldl
          (updateBest scores completed) none).map Prod.fst := by
      simp only [get_next_matchup, if_neg hcond]
    refine ⟨?_, ?_, rfl⟩
    · intro a b h
      rw [hform] at h
      obtain ⟨⟨p, d⟩, hfold, hfst⟩ := Option.map_eq_some'.1 h
      simp only at hfst
      subst hfst
      obtain ⟨pre, post, hsplit, hunc, hfirst⟩ :=
        scan_first_none scores completed _ _ _ hfold
      have hd : d = diffOf scores (a, b) :=
        scan_diff scores completed _ none (by intro q e h; cases h) _ _ hfold
      refine ⟨hsplit ▸ List.mem_append.2 (Or.inr (List.mem_cons_self _ _)),
        hunc, ?_, ⟨pre, post, hsplit, ?_⟩⟩
      · intro q hq hqc
        exact hd ▸ scan_min_none scores completed _ _ _ hfold q hq hqc
      · intro q hq hqc
        exact hd ▸ hfirst q hq hqc
    · intro h
      rw [hform] at h
      have hfold := Option.map_eq_none'.1 h
      exact ((scan_none_iff scores completed _ none).1 hfold).2

/-- C3 (amended): with the unbounded sentinel `ranking_size = 0`, the
Matchup Selector returns `none` exactly when every enumerated pool pair is
already in `completed_pairs`; in particular it does return `none` on its own
once the pool round-robin is exhausted. -/
theorem c3_unbounded_none_iff (scores : Scores)
    (completed : Finset (Finset PlayerId)) (m : ℕ) :
    get_next_matchup scores completed 0 m = none ↔
      ∀ q ∈ pairsList (scores.map Prod.fst), pairF q ∈ completed := by
  have hcond : ¬((0 : ℤ) > 0 ∧
      completed.card ≥ (scores.map Prod.fst).length *
        ((scores.map Prod.fst).length - 1) / 2) := by
    intro h
    exact absurd h.1 (lt_irrefl 0)
  simp only [get_next_matchup, if_neg hcond, Option.map_eq_none']
  rw [scan_none_iff]
  simp

lemma mem_dedupKeep : ∀ (l : List PlayerId) (a : PlayerId),
    a ∈ dedupKeep l ↔ a ∈ l := by
  intro l
  induction l using dedupKeep.induct with
  | case1 => intro a; simp [dedupKeep]
  | case2 x xs ih =>
    intro a
    rw [dedupKeep]
    by_cases hax : a = x
    · subst hax
      simp
    · simp only [List.mem_cons, ih, List.mem_filter]
      constructor
      · rintro (rfl | ⟨h, _⟩)
        · exact Or.inl rfl
        · exact Or.inr h
      · rintro (rfl | h)
        · exact Or.inl rfl
        · exact Or.inr ⟨h, by simp [hax]⟩

lemma dedupKeep_nodup : ∀ (l : List PlayerId), (dedupKeep l).Nodup := by
  intro l
  induction l using dedupKeep.induct with
  | case1 => simp [dedupKeep]
  | case2 x xs ih =>
    rw [dedupKeep, List.nodup_cons]
    refine ⟨?_, ih⟩
    intro hx
    have := List.mem_filter.1 ((mem_dedupKeep _ _).1 hx)
    simp at this

lemma keysOf_initScores (pool : List PlayerId) :
    (initScores pool).map Prod.fst = dedupKeep pool := by
  simp [initScores, List.map_map, Function.comp_def]

lemma setWinner_keys (s : Scores) (pid : PlayerId) (ns : ℝ) :
    (setWinner s pid ns).map Prod.fst = s.map Prod.fst := by
  simp only [setWinner, List.map_map]
  refine List.map_congr_left ?_
  intro e _
  by_cases h : e.1 = pid <;> simp [h]

lemma setLoser_keys (s : Scores) (pid : PlayerId) (ns : ℝ) :
    (setLoser s pid ns).map Prod.fst = s.map Prod.fst := by
  simp only [setLoser, List.map_map]
  refine List.map_congr_left ?_
  intro e _
  by_cases h : e.1 = pid <;> simp [h]

lemma applyVote_keys (s : Scores) (v : Vote) :
    (applyVote s v).map Prod.fst = s.map Prod.fst := by
  simp [applyVote, setLoser_keys, setWinner_keys]

lemma votesPairs_append (vs : List Vote) (v : Vote) :
    votesPairs (vs ++ [v]) =
      insert ({v.player1_id, v.player2_id} : Finset PlayerId) (votesPairs vs) := by
  simp only [votesPairs, List.map_append, List.toFinset_append, List.map_cons,
    List.map_nil, List.toFinset_cons, List.toFinset_nil]
  rw [Finset.union_comm]
  simp [Finset.insert_eq]

/-- If the selector returns a pair, that pair comes from the enumeration
over the pool and is not yet completed. -/
lemma get_next_matchup_some {scores : Scores}
    {completed : Finset (Finset PlayerId)} {rsize : ℤ} {m : ℕ}
    {p : PlayerId × PlayerId}
    (h : get_next_matchup scores completed rsize m = some p) :
    p ∈ pairsList (scores.map Prod.fst) ∧ pairF p ∉ completed := by
  by_cases hcond : rsize > 0 ∧
      completed.card ≥ (scores.map Prod.fst).length *
        ((scores.map Prod.fst).length - 1) / 2
  · rw [show get_next_matchup scores completed rsize m = none by
      simp only [get_next_matchup, if_pos hcond]] at h
    cases h
  · rw [show get_next_matchup scores completed rsize m =
        ((pairsList (scores.map Prod.fst)).foldl
          (updateBest scores completed) none).map Prod.fst by
      simp only [get_next_matchup, if_neg hcond]] at h
    obtain ⟨⟨q, d⟩, hfold, hfst⟩ := Option.map_eq_some'.1 h
    simp only at hfst
    subst hfst
    obtain ⟨pre, post, hsplit, hunc, _⟩ :=
      scan_first_none scores completed _ _ _ hfold
    exact ⟨hsplit ▸ List.mem_append.2 (Or.inr (List.mem_cons_self _ _)), hunc⟩

lemma SessionInv.keys_nodup {r : Ranking} (h : SessionInv r) : (keysOf r).Nodup :=
  h.keys_eq ▸ dedupKeep_nodup r.player_pool

/-- Characterization of a successful `submit_vote` on a fetched session: all
preconditions hold and the result is the prescribed update. -/
lemma submitVoteSession_ok {r : Ranking} {c : Option String} {w : PlayerId}
    {f : String} {r2 : Ranking}
    (h : submitVoteSession r c w f = .ok r2) :
    ownerMismatch r.session_id c = false ∧ r.is_complete = false ∧
    ∃ p, get_next_matchup r.player_rankings (completedPairs r) r.ranking_size
        r.matchups_completed = some p ∧ (w = p.1 ∨ w = p.2) ∧
      r2 = { r with
        player_rankings := applyVote r.player_rankings ⟨p.1, p.2, w⟩,
        matchups_completed := r.matchups_completed + 1,
        votes := r.votes ++ [⟨p.1, p.2, w⟩],
        is_complete := (get_next_matchup
          (applyVote r.player_rankings ⟨p.1, p.2, w⟩)
          (votesPairs (r.votes ++ [⟨p.1, p.2, w⟩])) r.ranking_size
          (r.matchups_completed + 1)).isNone,
        share_slug := if (get_next_matchup
          (applyVote r.player_rankings ⟨p.1, p.2, w⟩)
          (votesPairs (r.votes ++ [⟨p.1, p.2, w⟩])) r.ranking_size
          (r.matchups_completed + 1)).isNone then some f else r.share_slug } := by
  unfold submitVoteSession at h
  by_cases h1 : ownerMismatch r.session_id c = true
  · rw [if_pos h1] at h; cases h
  · rw [if_neg h1] at h
    by_cases h2 : r.is_complete = true
    · rw [if_pos h2] at h; cases h
    · rw [if_neg h2] at h
      refine ⟨Bool.not_eq_true _ ▸ h1, Bool.not_eq_true _ ▸ h2, ?_⟩
      cases hsel : get_next_matchup r.player_rankings (completedPairs r)
          r.ranking_size r.matchups_completed with
      | none =>
        rw [hsel] at h
        dsimp only at h
        cases h
      | some p =>
        rw [hsel] at h
        dsimp only at h
        by_cases h3 : w ≠ p.1 ∧ w ≠ p.2
        · rw [if_pos h3] at h; cases h
        · rw [if_neg h3] at h
          refine ⟨p, rfl, ?_, ?_⟩
          · rcases not_and_or.1 h3 with h4 | h4
            · exact Or.inl (not_not.1 h4)
            · exact Or.inr (not_not.1 h4)
          · exact (Except.ok.inj h).symm

/-- Characterization of a successful `start_ranking` validation. -/
lemma mkRanking_ok {catalog : List PlayerId} {lists : List CustomList}
    {req : StartRequest} {sid : Option String} {nid : ℕ} {r : Ranking}
    (h : mkRanking catalog lists req sid nid = .ok r) :
    ∃ ids, resolve_pool catalog lists req = .ok ids ∧ 2 ≤ ids.length ∧
      req.ranking_size ∈ ([0, 10, 50, 100] : List ℤ) ∧
      r = { id := nid, session_id := sid, ranking_size := req.ranking_size,
            player_rankings := initScores ids, player_pool := ids,
            is_complete := false, matchups_completed := 0,
            total_matchups := if req.ranking_size > 0 then
              some (ids.length * (ids.length - 1) / 2) else none,
            share_slug := none, votes := [] } := by
  unfold mkRanking at h
  by_cases h1 : req.ranking_size ∈ ([0, 10, 50, 100] : List ℤ)
  · rw [if_neg (not_not_intro h1)] at h
    cases hres : resolve_pool catalog lists req with
    | error e =>
      rw [hres] at h
      dsimp only at h
      cases h
    | ok ids =>
      rw [hres] at h
      dsimp only at h
      by_cases h2 : ids.length < 2
      · rw [if_pos h2] at h
        cases h
      · rw [if_neg h2] at h
        exact ⟨ids, rfl, not_lt.1 h2, h1, (Except.ok.inj h).symm⟩
  · rw [if_pos h1] at h
    cases h

lemma inv_start {catalog : List PlayerId} {lists : List CustomList}
    {req : StartRequest} {sid : Option String} {nid : ℕ} {r : Ranking}
    (h : mkRanking catalog lists req sid nid = .ok r) : SessionInv r := by
  obtain ⟨ids, _, _, _, rfl⟩ := mkRanking_ok h
  refine ⟨?_, ?_, ?_, ?_⟩
  · exact keysOf_initScores ids
  · simp [completedPairs, votesPairs]
  · intro t ht
    simp [completedPairs, votesPairs] at ht
  · rfl

lemma inv_step {r r2 : Ranking} (hi : SessionInv r) {c : Option String}
    {w : PlayerId} {f : String}
    (h : submitVoteSession r c w f = .ok r2) : SessionInv r2 := by
  obtain ⟨_, _, p, hsel, _, rfl⟩ := submitVoteSession_ok h
  obtain ⟨hmem, hunc⟩ := get_next_matchup_some hsel
  have hkeys : (applyVote r.player_rankings ⟨p.1, p.2, w⟩).map Prod.fst =
      keysOf r := applyVote_keys _ _
  have hpairs : votesPairs (r.votes ++ [⟨p.1, p.2, w⟩]) =
      insert (pairF p) (completedPairs r) := by
    rw [votesPairs_append]
    rfl
  refine ⟨?_, ?_, ?_, ?_⟩
  · show (applyVote r.player_rankings ⟨p.1, p.2, w⟩).map Prod.fst =
      dedupKeep r.player_pool
    rw [hkeys]
    exact hi.keys_eq
  · show r.matchups_completed + 1 =
      (votesPairs (r.votes ++ [⟨p.1, p.2, w⟩])).card
    rw [hpairs, Finset.card_insert_of_not_mem hunc, ← hi.count_eq]
  · show ∀ t ∈ votesPairs (r.votes ++ [⟨p.1, p.2, w⟩]), _
    intro t ht
    rw [hpairs] at ht
    rcases Finset.mem_insert.1 ht with rfl | ht
    · obtain ⟨h1, h2⟩ := mem_pairsList hmem
      refine ⟨p.1, p.2, ?_, ?_, pairsList_ne hi.keys_nodup hmem, rfl⟩
      · show p.1 ∈ (applyVote r.player_rankings ⟨p.1, p.2, w⟩).map Prod.fst
        rw [hkeys]; exact h1
      · show p.2 ∈ (applyVote r.player_rankings ⟨p.1, p.2, w⟩).map Prod.fst
        rw [hkeys]; exact h2
    · obtain ⟨a, b, ha, hb, hne, rfl⟩ := hi.wf t ht
      refine ⟨a, b, ?_, ?_, hne, rfl⟩
      · show a ∈ (applyVote r.player_rankings ⟨p.1, p.2, w⟩).map Prod.fst
        rw [hkeys]; exact ha
      · show b ∈ (applyVote r.player_rankings ⟨p.1, p.2, w⟩).map Prod.fst
        rw [hkeys]; exact hb
  · show replayVotes (initScores r.player_pool) (r.votes ++ [⟨p.1, p.2, w⟩]) =
      applyVote r.player_rankings ⟨p.1, p.2, w⟩
    rw [replayVotes, List.foldl_append]
    rw [show List.foldl applyVote (initScores r.player_pool) r.votes =
      r.player_rankings from hi.replay_eq]
    rfl

lemma inv_finalize {r : Ranking} (hi : SessionInv r) (g : Bool) (f : String) :
    SessionInv (finalizeSession r g f) :=
  ⟨hi.keys_eq, hi.count_eq, hi.wf, hi.replay_eq⟩

lemma inv_of_steps {r0 r : Ranking} (h0 : SessionInv r0)
    (h : Relation.ReflTransGen SessionStep r0 r) : SessionInv r := by
  induction h with
  | refl => exact h0
  | tail _ hstep ih =>
    rcases hstep with ⟨c, w, f, hok⟩ | ⟨g, f, rfl⟩
    · exact inv_step ih hok
    · exact inv_finalize ih g f

lemma inv_reachable {r : Ranking} (h : Reachable r) : SessionInv r := by
  obtain ⟨catalog, lists, req, sid, nid, r0, h0, hsteps⟩ := h
  exact inv_of_steps (inv_start h0) hsteps

/-- Static fields never touched by a vote. -/
lemma submit_ok_static {r r2 : Ranking} {c : Option String} {w : PlayerId}
    {f : String} (h : submitVoteSession r c w f = .ok r2) :
    r2.player_pool = r.player_pool ∧ r2.session_id = r.session_id ∧
    r2.ranking_size = r.ranking_size ∧ r2.id = r.id ∧
    r2.total_matchups = r.total_matchups ∧
    r2.matchups_completed = r.matchups_completed + 1 := by
  obtain ⟨_, _, p, _, _, rfl⟩ := submitVoteSession_ok h
  exact ⟨rfl, rfl, rfl, rfl, rfl, rfl⟩

/-- Exhaustive decision tree of `submit_vote` on a fetched session: each
precondition failure yields exactly its error (in source order), and when
none fails the vote is applied. -/
lemma submit_cases (r : Ranking) (c : Option String) (w : PlayerId)
    (f : String) :
    (ownerMismatch r.session_id c = true ∧
      submitVoteSession r c w f = .error .Forbidden) ∨
    (ownerMismatch r.session_id c = false ∧ r.is_complete = true ∧
      submitVoteSession r c w f = .error .SessionAlreadyComplete) ∨
    (ownerMismatch r.session_id c = false ∧ r.is_complete = false ∧
      get_next_matchup r.player_rankings (completedPairs r) r.ranking_size
        r.matchups_completed = none ∧
      submitVoteSession r c w f = .error .NoPendingMatchup) ∨
    (ownerMismatch r.session_id c = false ∧ r.is_complete = false ∧
      (∃ p, get_next_matchup r.player_rankings (completedPairs r)
          r.ranking_size r.matchups_completed = some p ∧
        w ≠ p.1 ∧ w ≠ p.2) ∧
      submitVoteSession r c w f = .error .InvalidWinner) ∨
    (ownerMismatch r.session_id c = false ∧ r.is_complete = false ∧
      ∃ p, get_next_matchup r.player_rankings (completedPairs r)
          r.ranking_size r.matchups_completed = some p ∧
        (w = p.1 ∨ w = p.2) ∧
        submitVoteSession r c w f = .ok (votedRanking r p w f)) := by
  cases h1 : ownerMismatch r.session_id c with
  | true =>
    left
    exact ⟨rfl, by rw [submitVoteSession, if_pos h1]⟩
  | false =>
    have h1n : ¬(ownerMismatch r.session_id c = true) := by simp [h1]
    cases h2 : r.is_complete with
    | true =>
      right; left
      exact ⟨rfl, rfl, by rw [submitVoteSession, if_neg h1n, if_pos h2]⟩
    | false =>
      have h2n : ¬(r.is_complete = true) := by simp [h2]
      cases hsel : get_next_matchup r.player_rankings (completedPairs r)
          r.ranking_size r.matchups_completed with
      | none =>
        right; right; left
        refine ⟨rfl, rfl, rfl, ?_⟩
        rw [submitVoteSession, if_neg h1n, if_neg h2n, hsel]
      | some p =>
        by_cases h3 : w ≠ p.1 ∧ w ≠ p.2
        · right; right; right; left
          refine ⟨rfl, rfl, ⟨p, rfl, h3⟩, ?_⟩
          rw [submitVoteSession, if_neg h1n, if_neg h2n, hsel]
          dsimp only
          rw [if_pos h3]
        · right; right; right; right
          refine ⟨rfl, rfl, p, rfl, ?_, ?_⟩
          · rcases not_and_or.1 h3 with h4 | h4
            · exact Or.inl (not_not.1 h4)
            · exact Or.inr (not_not.1 h4)
          · rw [submitVoteSession, if_neg h1n, if_neg h2n, hsel]
            dsimp only
            rw [if_neg h3]
            rfl

lemma submit_outcome_spec (r : Ranking) (c : Option String) (w : PlayerId)
    (f : String) : VoteOutcomeSpec r c w f := by
  rcases submit_cases r c w f with ⟨h1, hs⟩ | ⟨h1, h2, hs⟩ |
    ⟨h1, h2, hsel, hs⟩ | ⟨h1, h2, ⟨p, hsel, h3⟩, hs⟩ | ⟨h1, h2, p, hsel, hw, hs⟩
  · exact ⟨by simp [hs, h1], by simp [hs, h1], by simp [hs, h1],
      by simp [hs, h1], by intro r2; simp [hs, h1]⟩
  · exact ⟨by simp [hs, h1, h2], by simp [hs, h1, h2], by simp [hs, h2],
      by simp [hs, h2], by intro r2; simp [hs, h2]⟩
  · exact ⟨by simp [hs, h1, h2], by simp [hs, h2], by simp [hs, h1, h2, hsel],
      by simp [hs, hsel], by intro r2; simp [hs, hsel]⟩
  · refine ⟨by simp [hs, h1], by simp [hs, h2], by simp [hs, hsel],
      by simp [hs, h1, h2, hsel, h3.1, h3.2], ?_⟩
    intro r2
    constructor
    · intro h
      rw [hs] at h
      cases h
    · rintro ⟨_, _, q, hq, hwq, _⟩
      rw [hsel, Option.some.injEq] at hq
      subst hq
      rcases hwq with h | h
      · exact absurd h h3.1
      · exact absurd h h3.2
  · refine ⟨by simp [hs, h1], by simp [hs, h2], by simp [hs, hsel], ?_, ?_⟩
    · constructor
      · intro h
        rw [hs] at h
        cases h
      · rintro ⟨_, _, q, hq, hq1, hq2⟩
        rw [hsel, Option.some.injEq] at hq
        subst hq
        rcases hw with h | h
        · exact absurd h hq1
        · exact absurd h hq2
    · intro r2
      constructor
      · intro h
        rw [hs, Except.ok.injEq] at h
        exact ⟨h1, h2, p, hsel, hw, h.symm⟩
      · rintro ⟨_, _, q, hq, _, rfl⟩
        rw [hsel, Option.some.injEq] at hq
        subst hq
        exact hs

/-- C5: `submit_vote` is atomic with respect to its failure modes: a missing
session fails with `SessionNotFound`; on a fetched session each validation
error occurs exactly when its precondition fails; every failure leaves the
persisted store entirely unchanged; and the vote effects are written exactly
when no precondition fails. -/
theorem c5_vote_atomicity (store : List Ranking) (rid : ℕ)
    (c : Option String) (w : PlayerId) (f : String) :
    (findRanking store rid = none →
      submit_vote store rid c w f = .error .SessionNotFound) ∧
    (∀ r, findRanking store rid = some r → VoteOutcomeSpec r c w f) ∧
    (∀ e, submit_vote store rid c w f = .error e →
      voteTxn store rid c w f = store) ∧
    (∀ r r2, findRanking store rid = some r →
      submitVoteSession r c w f = .ok r2 →
      voteTxn store rid c w f = store.map fun s => if s.id = rid then r2 else s) := by
  refine ⟨?_, ?_, ?_, ?_⟩
  · intro h
    rw [submit_vote, h]
  · intro r _
    exact submit_outcome_spec r c w f
  · intro e h
    rw [voteTxn, h]
  · intro r r2 hfind hok
    rw [voteTxn, submit_vote, hfind]
    dsimp only
    rw [hok]
    rfl

/-- C6: for every reachable session, `matchups_completed` equals the number
of completed pairs, every pool item has exactly one ratings entry, and each
accepted vote adds exactly one previously-uncompared pair to
`completed_pairs` while incrementing `matchups_completed` by exactly one. -/
theorem c6_session_invariants (r : Ranking) (h : Reachable r) :
    r.matchups_completed = (completedPairs r).card ∧
    (∀ pid ∈ r.player_pool, (r.player_rankings.map Prod.fst).count pid = 1) ∧
    (∀ r2 c w f, submitVoteSession r c w f = .ok r2 →
      r2.matchups_completed = r.matchups_completed + 1 ∧
      ∃ p, p ∉ completedPairs r ∧ completedPairs r2 = insert p (completedPairs r)) := by
  have hi := inv_reachable h
  refine ⟨hi.count_eq, ?_, ?_⟩
  · intro pid hpid
    have hkeq : r.player_rankings.map Prod.fst = dedupKeep r.player_pool :=
      hi.keys_eq
    rw [hkeq]
    exact List.count_eq_one_of_mem (dedupKeep_nodup _) ((mem_dedupKeep _ _).2 hpid)
  · intro r2 c w f hok
    obtain ⟨_, _, p, hsel, _, rfl⟩ := submitVoteSession_ok hok
    obtain ⟨_, hunc⟩ := get_next_matchup_some hsel
    refine ⟨rfl, pairF p, hunc, ?_⟩
    show votesPairs (r.votes ++ [⟨p.1, p.2, w⟩]) = insert (pairF p) (completedPairs r)
    rw [votesPairs_append]
    rfl

/-- C7: for every reachable session, replaying its vote log in insertion
order from the initial ratings (1500 score, 0 wins, 0 losses for every pool
item), applying the Rating Model update and the win/loss increments vote by
vote, reproduces the stored live ratings map exactly. -/
theorem c7_replay_round_trip (r : Ranking) (h : Reachable r) :
    replayVotes (initScores r.player_pool) r.votes = r.player_rankings :=
  (inv_reachable h).replay_eq

lemma insertDesc_perm {α : Type} (key : α → ℝ) (x : α) :
    ∀ l : List α, (insertDesc key x l).Perm (x :: l) := by
  intro l
  induction l with
  | nil => simp [insertDesc]
  | cons y ys ih =>
    rw [insertDesc]
    by_cases h : key y ≤ key x
    · rw [if_pos h]
    · rw [if_neg h]
      exact (ih.cons y).trans (List.Perm.swap x y ys)

lemma sortDesc_perm {α : Type} (key : α → ℝ) :
    ∀ l : List α, (sortDesc key l).Perm l := by
  intro l
  induction l with
  | nil => simp [sortDesc]
  | cons x xs ih =>
    exact (insertDesc_perm key x (sortDesc key xs)).trans (ih.cons x)

lemma mem_sortDesc {α : Type} (key : α → ℝ) {l : List α} {a : α} :
    a ∈ sortDesc key l ↔ a ∈ l :=
  (sortDesc_perm key l).mem_iff

lemma length_sortDesc {α : Type} (key : α → ℝ) (l : List α) :
    (sortDesc key l).length = l.length :=
  (sortDesc_perm key l).length_eq

lemma insertDesc_sorted {α : Type} (key : α → ℝ) (x : α) {l : List α}
    (h : l.Pairwise (fun a b => key b ≤ key a)) :
    (insertDesc key x l).Pairwise (fun a b => key b ≤ key a) := by
  induction l with
  | nil => simp [insertDesc]
  | cons y ys ih =>
    obtain ⟨hy, hys⟩ := List.pairwise_cons.1 h
    rw [insertDesc]
    by_cases hc : key y ≤ key x
    · rw [if_pos hc]
      refine List.Pairwise.cons ?_ h
      intro z hz
      rcases List.mem_cons.1 hz with rfl | hz
      · exact hc
      · exact le_trans (hy z hz) hc
    · rw [if_neg hc]
      refine List.Pairwise.cons ?_ (ih hys)
      intro z hz
      have hz2 := (insertDesc_perm key x ys).mem_iff.1 hz
      rcases List.mem_cons.1 hz2 with rfl | hz2
      · exact le_of_lt (not_le.1 hc)
      · exact hy z hz2

lemma sortDesc_sorted {α : Type} (key : α → ℝ) (l : List α) :
    (sortDesc key l).Pairwise (fun a b => key b ≤ key a) := by
  induction l with
  | nil => simp [sortDesc]
  | cons x xs ih => exact insertDesc_sorted key x ih

lemma insertDesc_map {α β : Type} (key : α → ℝ) (g : β → α) (x : β) :
    ∀ l : List β,
      (insertDesc (fun e => key (g e)) x l).map g = insertDesc key (g x) (l.map g) := by
  intro l
  induction l with
  | nil => simp [insertDesc]
  | cons y ys ih =>
    rw [insertDesc, List.map_cons, insertDesc]
    by_cases h : key (g y) ≤ key (g x)
    · rw [if_pos h, if_pos h]
      rfl
    · rw [if_neg h, if_neg h, List.map_cons, ih]

lemma sortDesc_map {α β : Type} (key : α → ℝ) (g : β → α) :
    ∀ l : List β,
      (sortDesc (fun e => key (g e)) l).map g = sortDesc key (l.map g) := by
  intro l
  induction l with
  | nil => simp [sortDesc]
  | cons x xs ih =>
    show (insertDesc _ x (sortDesc _ xs)).map g = insertDesc key (g x) (sortDesc key (xs.map g))
    rw [insertDesc_map, ih]

lemma insertLexDesc_eq_insertDesc {α : Type} (key : α → ℝ) (x : ℕ × α)
    {l : List (ℕ × α)} (hx : ∀ y ∈ l, x.1 < y.1) :
    insertLexDesc key x l = insertDesc (fun e => key e.2) x l := by
  induction l with
  | nil => rfl
  | cons y ys ih =>
    rw [insertLexDesc, insertDesc]
    have hxy : x.1 < y.1 := hx y (List.mem_cons_self _ _)
    by_cases h : key y.2 ≤ key x.2
    · rw [if_pos h, if_pos ?_]
      rcases lt_or_eq_of_le h with h2 | h2
      · exact Or.inl h2
      · exact Or.inr ⟨h2.symm, hxy⟩
    · rw [if_neg h, if_neg ?_, ih (fun z hz => hx z (List.mem_cons_of_mem _ hz))]
      rintro (h2 | ⟨h2, _⟩)
      · exact h (le_of_lt h2)
      · exact h (le_of_eq h2.symm)

lemma sortLexDesc_eq_sortDesc {α : Type} (key : α → ℝ) :
    ∀ {l : List (ℕ × α)}, l.Pairwise (fun a b => a.1 < b.1) →
      sortLexDesc key l = sortDesc (fun e => key e.2) l := by
  intro l
  induction l with
  | nil => intro _; rfl
  | cons x xs ih =>
    intro h
    obtain ⟨hx, hxs⟩ := List.pairwise_cons.1 h
    show insertLexDesc key x (sortLexDesc key xs) = insertDesc _ x (sortDesc _ xs)
    rw [ih hxs]
    refine insertLexDesc_eq_insertDesc key x ?_
    intro y hy
    exact hx y ((sortDesc_perm _ xs).mem_iff.1 hy)

lemma enum_pairwise_fst {α : Type} (l : List α) :
    l.enum.Pairwise (fun a b => a.1 < b.1) := by
  have h1 : (l.enum.map Prod.fst).Pairwise (fun a b : ℕ => a < b) := by
    rw [List.enum_map_fst]
    exact List.pairwise_lt_range l.length
  exact (List.pairwise_map.1 h1)

lemma round1_mono {x y : ℝ} (h : x ≤ y) : round1 x ≤ round1 y := by
  unfold round1
  have hm : round ((10 : ℝ) * x) ≤ round ((10 : ℝ) * y) := by
    rw [round_eq, round_eq]
    exact Int.floor_mono (by linarith)
  have hc : ((round ((10 : ℝ) * x) : ℤ) : ℝ) ≤ ((round ((10 : ℝ) * y) : ℤ) : ℝ) := by
    exact_mod_cast hm
  linarith

/-- C8: the Ranking Materializer equals its specification — the ratings
entries ordered by descending score with ties broken stably by original map
position, emitted with 1-based ranks, id, score rounded to one decimal, wins
and losses; its output is weakly descending in the displayed score, its
ranks are exactly 1..n, and repeated invocation on an unchanged session
yields identical output. -/
theorem c8_materializer (player_scores : Scores) :
    compute_rankings_from_scores player_scores = specRankings player_scores ∧
    (compute_rankings_from_scores player_scores).map (fun e => e.rank) =
      List.range' 1 player_scores.length ∧
    (compute_rankings_from_scores player_scores).Pairwise
      (fun a b => b.score ≤ a.score) ∧
    compute_rankings_from_scores player_scores =
      compute_rankings_from_scores player_scores := by
  refine ⟨?_, ?_, ?_, rfl⟩
  · unfold specRankings compute_rankings_from_scores
    rw [sortLexDesc_eq_sortDesc scoreKey (enum_pairwise_fst player_scores)]
    rw [show (fun e : ℕ × (PlayerId × PlayerData) => scoreKey e.2) =
      (fun e => scoreKey (Prod.snd e)) from rfl]
    rw [sortDesc_map scoreKey Prod.snd player_scores.enum, List.enum_map_snd]
  · unfold compute_rankings_from_scores
    rw [List.map_map]
    have h1 : ((sortDesc scoreKey player_scores).enum).map
        (fun ie => ie.1 + 1) = (List.range (sortDesc scoreKey player_scores).length).map
          (fun i => i + 1) := by
      rw [← List.enum_map_fst (sortDesc scoreKey player_scores), List.map_map]
      rfl
    rw [show ((fun e : RankingEntry => e.rank) ∘ fun ie : ℕ × (PlayerId × PlayerData) =>
        ({ rank := ie.1 + 1, player_id := ie.2.1, score := round1 ie.2.2.score,
           wins := ie.2.2.wins, losses := ie.2.2.losses } : RankingEntry)) =
      (fun ie : ℕ × (PlayerId × PlayerData) => ie.1 + 1) from rfl, h1,
      length_sortDesc]
    rw [List.range'_eq_map_range]
    exact List.map_congr_left fun i _ => Nat.add_comm i 1
  · unfold compute_rankings_from_scores
    rw [List.pairwise_map]
    have hs : ((sortDesc scoreKey player_scores).enum.map Prod.snd).Pairwise
        (fun a b => scoreKey b ≤ scoreKey a) := by
      rw [List.enum_map_snd]
      exact sortDesc_sorted scoreKey player_scores
    have he := List.pairwise_map.1 hs
    exact he.imp fun h => round1_mono h

/-- Characterization of a successful `create_custom_list`. -/
lemma create_custom_list_ok {validPlayers : List PlayerId}
    {req : CreateListRequest} {sid : Option String} {code : String} {nid : ℕ}
    {cl : CustomList}
    (h : create_custom_list validPlayers req sid code nid = .ok cl) :
    cl.player_ids = req.player_ids ∧ 2 ≤ req.player_ids.length ∧
      req.player_ids.length ≤ 200 := by
  unfold create_custom_list at h
  by_cases h1 : req.player_ids.length < 2
  · rw [if_pos h1] at h
    cases h
  · rw [if_neg h1] at h
    by_cases h2 : req.player_ids.length > 200
    · rw [if_pos h2] at h
      cases h
    · rw [if_neg h2] at h
      by_cases h3 : (req.player_ids.filter fun p => !(validPlayers.contains p)) ≠ []
      · rw [if_pos h3] at h
        cases h
      · rw [if_neg h3] at h
        refine ⟨?_, not_lt.1 h1, not_lt.1 h2⟩
        rw [← Except.ok.inj h]

/-- C9 (amended): `start_ranking` stores the resolved pool verbatim —
without deduplication — fails with `InvalidPool` exactly when the raw
resolved list has fewer than 2 entries, and fixes `total_matchups` from the
raw resolved length on bounded sessions (`none` when unbounded). -/
theorem c9_start_validation (catalog : List PlayerId) (lists : List CustomList)
    (req : StartRequest) (sid : Option String) (nid : ℕ) (ids : List PlayerId)
    (hsize : req.ranking_size ∈ ([0, 10, 50, 100] : List ℤ))
    (hres : resolve_pool catalog lists req = .ok ids) :
    (ids.length < 2 →
      mkRanking catalog lists req sid nid = .error .InvalidPool) ∧
    (2 ≤ ids.length →
      mkRanking catalog lists req sid nid = .ok
        { id := nid, session_id := sid, ranking_size := req.ranking_size,
          player_rankings := initScores ids, player_pool := ids,
          is_complete := false, matchups_completed := 0,
          total_matchups := if req.ranking_size > 0 then
            some (ids.length * (ids.length - 1) / 2) else none,
          share_slug := none, votes := [] }) := by
  constructor
  · intro h
    rw [mkRanking, if_neg (not_not_intro hsize), hres]
    dsimp only
    rw [if_pos h]
  · intro h
    rw [mkRanking, if_neg (not_not_intro hsize), hres]
    dsimp only
    rw [if_neg (not_lt.2 h)]

/-- C9 is false as stated: the resolved pool is not deduplicated.  The
request below resolves to a pool with a repeated id, which is stored
verbatim (it is not duplicate-free), passes the minimum-size check on its
raw length 3, and gets `total_matchups = 3`, while the claim deduplicated
pool has length 2 and would give `total_matchups = 1`. -/
theorem c9_counterexample :
    mkRanking [] [] ⟨10, some ["A", "A", "B"], none⟩ none 1 =
      .ok { id := 1, session_id := none, ranking_size := 10,
            player_rankings := initScores ["A", "A", "B"],
            player_pool := ["A", "A", "B"], is_complete := false,
            matchups_completed := 0, total_matchups := some 3,
            share_slug := none, votes := [] } ∧
    ¬(["A", "A", "B"] : List PlayerId).Nodup ∧
    (dedupKeep ["A", "A", "B"]).length *
      ((dedupKeep ["A", "A", "B"]).length - 1) / 2 = 1 ∧
    (3 : ℕ) ≠ 1 := by
  refine ⟨?_, by decide, ?_, by decide⟩
  · rfl
  · have hd : dedupKeep ["A", "A", "B"] = ["A", "B"] := by
      simp [dedupKeep]
    rw [hd]
    decide

/-- C10: `create_custom_list` rejects requests with fewer than 2 or more
than 200 player ids, every successfully stored custom list keeps between 2
and 200 ids, and consequently every custom list drawn from such a store by
the pool resolution of `start_ranking` has between 2 and 200 ids. -/
theorem c10_custom_list_bounds (validPlayers : List PlayerId)
    (req : CreateListRequest) (sid : Option String) (code : String) (nid : ℕ) :
    (∀ cl, create_custom_list validPlayers req sid code nid = .ok cl →
      2 ≤ cl.player_ids.length ∧ cl.player_ids.length ≤ 200) ∧
    (req.player_ids.length < 2 →
      create_custom_list validPlayers req sid code nid = .error .TooFew) ∧
    (req.player_ids.length > 200 →
      create_custom_list validPlayers req sid code nid = .error .TooMany) ∧
    (∀ (catalog : List PlayerId) (lists : List CustomList)
        (req2 : StartRequest) (ids : List PlayerId),
      (∀ cl ∈ lists, 2 ≤ cl.player_ids.length ∧ cl.player_ids.length ≤ 200) →
      truthyStr req2.custom_list_code = true →
      resolve_pool catalog lists req2 = .ok ids →
      2 ≤ ids.length ∧ ids.length ≤ 200) := by
  refine ⟨?_, ?_, ?_, ?_⟩
  · intro cl h
    obtain ⟨heq, h2, h3⟩ := create_custom_list_ok h
    rw [heq]
    exact ⟨h2, h3⟩
  · intro h
    rw [create_custom_list, if_pos h]
  · intro h
    rw [create_custom_list, if_neg (by omega : ¬req.player_ids.length < 2),
      if_pos h]
  · intro catalog lists req2 ids hall htr hres
    rw [resolve_pool, if_pos htr] at hres
    cases hfind : lists.find? (fun cl => some cl.share_code == req2.custom_list_code) with
    | none =>
      rw [hfind] at hres
      cases hres
    | some cl =>
      rw [hfind] at hres
      dsimp only at hres
      have hmem := List.mem_of_find?_eq_some hfind
      have := hall cl hmem
      rw [← Except.ok.inj hres]
      exact this

lemma elo_eq_inputs (x : ℝ) : compute_elo_update x x = (x + 16, x - 16) := by
  unfold compute_elo_update
  have h0 : (x - x) / 400 = 0 := by rw [sub_self, zero_div]
  rw [h0, Real.rpow_zero]
  norm_num
  ring

lemma init_two : initScores ["A", "B"] =
    [("A", ⟨1500, 0, 0⟩), ("B", ⟨1500, 0, 0⟩)] := by
  simp [initScores, dedupKeep]

lemma two_start : mkRanking [] [] ⟨0, some ["A", "B"], none⟩ none 1 =
    .ok twoR0 := by
  rw [show mkRanking [] [] ⟨0, some ["A", "B"], none⟩ none 1 =
    .ok { id := 1, session_id := none, ranking_size := 0,
          player_rankings := initScores ["A", "B"],
          player_pool := ["A", "B"], is_complete := false,
          matchups_completed := 0, total_matchups := none,
          share_slug := none, votes := [] } from rfl, init_two]
  rfl

lemma two_sel0 : get_next_matchup ([("A", ⟨1500, 0, 0⟩), ("B", ⟨1500, 0, 0⟩)])
    (votesPairs []) 0 0 = some ("A", "B") := by
  rw [get_next_matchup]
  simp [pairsList, updateBest, votesPairs, pairF]

lemma two_apply : applyVote ([("A", ⟨1500, 0, 0⟩), ("B", ⟨1500, 0, 0⟩)])
    ⟨"A", "B", "A"⟩ = [("A", ⟨1516, 1, 0⟩), ("B", ⟨1484, 0, 1⟩)] := by
  rw [applyVote]
  simp [lookupD, setWinner, setLoser, elo_eq_inputs]
  norm_num

lemma two_sel1 : get_next_matchup ([("A", ⟨1516, 1, 0⟩), ("B", ⟨1484, 0, 1⟩)])
    (votesPairs [⟨"A", "B", "A"⟩]) 0 1 = none := by
  rw [get_next_matchup]
  simp [pairsList, updateBest, votesPairs, pairF]

lemma two_step : submitVoteSession twoR0 none "A" "s1" = .ok twoR1 := by
  rw [submitVoteSession]
  rw [if_neg (by simp [twoR0, ownerMismatch])]
  rw [if_neg (by simp [twoR0])]
  rw [show get_next_matchup twoR0.player_rankings (completedPairs twoR0)
      twoR0.ranking_size twoR0.matchups_completed = some ("A", "B") from two_sel0]
  dsimp only
  rw [if_neg (by simp)]
  rw [show applyVote twoR0.player_rankings ⟨"A", "B", "A"⟩ =
      [("A", ⟨1516, 1, 0⟩), ("B", ⟨1484, 0, 1⟩)] from two_apply]
  rw [show twoR0.votes ++ [(⟨"A", "B", "A"⟩ : Vote)] = [⟨"A", "B", "A"⟩] from rfl]
  rw [show get_next_matchup ([("A", ⟨1516, 1, 0⟩), ("B", ⟨1484, 0, 1⟩)])
      (votesPairs [⟨"A", "B", "A"⟩]) twoR0.ranking_size
      (twoR0.matchups_completed + 1) = none from two_sel1]
  rfl

lemma two_reachable : Reachable twoR1 :=
  ⟨[], [], ⟨0, some ["A", "B"], none⟩, none, 1, twoR0, two_start,
    Relation.ReflTransGen.single (Or.inl ⟨none, "A", "s1", two_step⟩)⟩

/-- C3 is false as stated: in the unbounded 2-player session reached by the
single accepted vote "A beats B", every pool pair has been compared and the
Matchup Selector returns `none` on its own (the session even auto-completed
on that vote), without any explicit finalization. -/
theorem c3_counterexample :
    Reachable twoR1 ∧ twoR1.ranking_size = 0 ∧
    get_next_matchup twoR1.player_rankings (completedPairs twoR1)
      twoR1.ranking_size twoR1.matchups_completed = none ∧
    twoR1.is_complete = true := by
  refine ⟨two_reachable, rfl, ?_, rfl⟩
  exact two_sel1

lemma init_four : initScores ["A", "B", "C", "D"] = sc0 := by
  simp [initScores, dedupKeep, sc0]

lemma four_start : mkRanking [] [] ⟨10, some ["A", "B", "C", "D"], none⟩ none 2 =
    .ok fourR0 := by
  rw [show mkRanking [] [] ⟨10, some ["A", "B", "C", "D"], none⟩ none 2 =
    .ok { id := 2, session_id := none, ranking_size := 10,
          player_rankings := initScores ["A", "B", "C", "D"],
          player_pool := ["A", "B", "C", "D"], is_complete := false,
          matchups_completed := 0, total_matchups := some 6,
          share_slug := none, votes := [] } from rfl, init_four]
  rfl

lemma four_sel0 : get_next_matchup sc0 (votesPairs []) 10 0 = some ("A", "B") := by
  rw [get_next_matchup]
  rw [if_neg (by simp +decide [votesPairs])]
  norm_num +decide [sc0, pairsList, updateBest, diffOf, lookupD, pairF, votesPairs]

lemma four_sel1 : get_next_matchup sc1 (votesPairs vs1) 10 1 = some ("C", "D") := by
  rw [get_next_matchup]
  rw [if_neg (by simp +decide [votesPairs, vs1])]
  norm_num +decide [sc1, vs1, pairsList, updateBest, diffOf, lookupD, pairF, votesPairs]

lemma four_sel2 : get_next_matchup sc2 (votesPairs vs2) 10 2 = some ("A", "C") := by
  rw [get_next_matchup]
  rw [if_neg (by simp +decide [votesPairs, vs2, vs1])]
  norm_num +decide [sc2, vs2, vs1, pairsList, updateBest, diffOf, lookupD, pairF,
    votesPairs]

lemma four_sel3 : get_next_matchup sc3 (votesPairs vs3) 10 3 = some ("B", "D") := by
  rw [get_next_matchup]
  rw [if_neg (by simp +decide [votesPairs, vs3, vs2, vs1])]
  norm_num +decide [sc3, vs3, vs2, vs1, pairsList, updateBest, diffOf, lookupD,
    pairF, votesPairs]

lemma four_sel4 : get_next_matchup sc4 (votesPairs vs4) 10 4 = some ("B", "C") := by
  rw [get_next_matchup]
  rw [if_neg (by simp +decide [votesPairs, vs4, vs3, vs2, vs1])]
  norm_num +decide [sc4, vs4, vs3, vs2, vs1, pairsList, updateBest, diffOf,
    lookupD, pairF, votesPairs]

lemma four_sel5 : get_next_matchup sc5 (votesPairs vs5) 10 5 = some ("A", "D") := by
  rw [get_next_matchup]
  rw [if_neg (by simp +decide [votesPairs, vs5, vs4, vs3, vs2, vs1])]
  norm_num +decide [sc5, vs5, vs4, vs3, vs2, vs1, pairsList, updateBest, diffOf,
    lookupD, pairF, votesPairs]

lemma four_sel6 : get_next_matchup (applyVote sc5 ⟨"A", "D", "A"⟩)
    (votesPairs vs6) 10 6 = none := by
  have hk : (applyVote sc5 ⟨"A", "D", "A"⟩).map Prod.fst =
      ["A", "B", "C", "D"] := by
    rw [applyVote_keys]
    simp [sc5]
  have hcard : (votesPairs vs6).card = 6 := by decide
  rw [get_next_matchup]
  rw [if_pos ?_]
  rw [hk, hcard]
  exact ⟨by norm_num, by norm_num⟩

lemma four_apply1 : applyVote sc0 ⟨"A", "B", "A"⟩ = sc1 := by
  rw [applyVote]
  simp [sc0, sc1, lookupD, setWinner, setLoser, elo_eq_inputs]
  norm_num

lemma four_apply2 : applyVote sc1 ⟨"C", "D", "C"⟩ = sc2 := by
  rw [applyVote]
  simp [sc1, sc2, lookupD, setWinner, setLoser, elo_eq_inputs]
  norm_num

lemma four_apply3 : applyVote sc2 ⟨"A", "C", "A"⟩ = sc3 := by
  rw [applyVote]
  simp [sc2, sc3, lookupD, setWinner, setLoser, elo_eq_inputs]
  norm_num

lemma four_apply4 : applyVote sc3 ⟨"B", "D", "B"⟩ = sc4 := by
  rw [applyVote]
  simp [sc3, sc4, lookupD, setWinner, setLoser, elo_eq_inputs]
  norm_num

lemma four_apply5 : applyVote sc4 ⟨"B", "C", "B"⟩ = sc5 := by
  rw [applyVote]
  simp [sc4, sc5, lookupD, setWinner, setLoser, elo_eq_inputs]
  norm_num

lemma four_step1 : submitVoteSession fourR0 none "A" "s1" = .ok fourR1 := by
  rw [submitVoteSession]
  rw [if_neg (by simp [fourR0, fourState, ownerMismatch])]
  rw [if_neg (by simp [fourR0, fourState])]
  rw [show get_next_matchup fourR0.player_rankings (completedPairs fourR0)
      fourR0.ranking_size fourR0.matchups_completed = some ("A", "B") from four_sel0]
  dsimp only
  rw [if_neg (by simp)]
  rw [show applyVote fourR0.player_rankings ⟨"A", "B", "A"⟩ = sc1 from four_apply1]
  rw [show fourR0.votes ++ [(⟨"A", "B", "A"⟩ : Vote)] = vs1 from rfl]
  rw [show get_next_matchup sc1 (votesPairs vs1) fourR0.ranking_size
      (fourR0.matchups_completed + 1) = some ("C", "D") from four_sel1]
  rfl

lemma four_step2 : submitVoteSession fourR1 none "C" "s2" = .ok fourR2 := by
  rw [submitVoteSession]
  rw [if_neg (by simp [fourR1, fourState, ownerMismatch])]
  rw [if_neg (by simp [fourR1, fourState])]
  rw [show get_next_matchup fourR1.player_rankings (completedPairs fourR1)
      fourR1.ranking_size fourR1.matchups_completed = some ("C", "D") from four_sel1]
  dsimp only
  rw [if_neg (by simp)]
  rw [show applyVote fourR1.player_rankings ⟨"C", "D", "C"⟩ = sc2 from four_apply2]
  rw [show fourR1.votes ++ [(⟨"C", "D", "C"⟩ : Vote)] = vs2 from rfl]
  rw [show get_next_matchup sc2 (votesPairs vs2) fourR1.ranking_size
      (fourR1.matchups_completed + 1) = some ("A", "C") from four_sel2]
  rfl

lemma four_step3 : submitVoteSession fourR2 none "A" "s3" = .ok fourR3 := by
  rw [submitVoteSession]
  rw [if_neg (by simp [fourR2, fourState, ownerMismatch])]
  rw [if_neg (by simp [fourR2, fourState])]
  rw [show get_next_matchup fourR2.player_rankings (completedPairs fourR2)
      fourR2.ranking_size fourR2.matchups_completed = some ("A", "C") from four_sel2]
  dsimp only
  rw [if_neg (by simp)]
  rw [show applyVote fourR2.player_rankings ⟨"A", "C", "A"⟩ = sc3 from four_apply3]
  rw [show fourR2.votes ++ [(⟨"A", "C", "A"⟩ : Vote)] = vs3 from rfl]
  rw [show get_next_matchup sc3 (votesPairs vs3) fourR2.ranking_size
      (fourR2.matchups_completed + 1) = some ("B", "D") from four_sel3]
  rfl

lemma four_step4 : submitVoteSession fourR3 none "B" "s4" = .ok fourR4 := by
  rw [submitVoteSession]
  rw [if_neg (by simp [fourR3, fourState, ownerMismatch])]
  rw [if_neg (by simp [fourR3, fourState])]
  rw [show get_next_matchup fourR3.player_rankings (completedPairs fourR3)
      fourR3.ranking_size fourR3.matchups_completed = some ("B", "D") from four_sel3]
  dsimp only
  rw [if_neg (by simp)]
  rw [show applyVote fourR3.player_rankings ⟨"B", "D", "B"⟩ = sc4 from four_apply4]
  rw [show fourR3.votes ++ [(⟨"B", "D", "B"⟩ : Vote)] = vs4 from rfl]
  rw [show get_next_matchup sc4 (votesPairs vs4) fourR3.ranking_size
      (fourR3.matchups_completed + 1) = some ("B", "C") from four_sel4]
  rfl

lemma four_step5 : submitVoteSession fourR4 none "B" "s5" = .ok fourR5 := by
  rw [submitVoteSession]
  rw [if_neg (by simp [fourR4, fourState, ownerMismatch])]
  rw [if_neg (by simp [fourR4, fourState])]
  rw [show get_next_matchup fourR4.player_rankings (completedPairs fourR4)
      fourR4.ranking_size fourR4.matchups_completed = some ("B", "C") from four_sel4]
  dsimp only
  rw [if_neg (by simp)]
  rw [show applyVote fourR4.player_rankings ⟨"B", "C", "B"⟩ = sc5 from four_apply5]
  rw [show fourR4.votes ++ [(⟨"B", "C", "B"⟩ : Vote)] = vs5 from rfl]
  rw [show get_next_matchup sc5 (votesPairs vs5) fourR4.ranking_size
      (fourR4.matchups_completed + 1) = some ("A", "D") from four_sel5]
  rfl

lemma four_step6 : submitVoteSession fourR5 none "A" "s6" = .ok fourR6 := by
  rw [submitVoteSession]
  rw [if_neg (by simp [fourR5, fourState, ownerMismatch])]
  rw [if_neg (by simp [fourR5, fourState])]
  rw [show get_next_matchup fourR5.player_rankings (completedPairs fourR5)
      fourR5.ranking_size fourR5.matchups_completed = some ("A", "D") from four_sel5]
  dsimp only
  rw [if_neg (by simp)]
  rw [show fourR5.votes ++ [(⟨"A", "D", "A"⟩ : Vote)] = vs6 from rfl]
  rw [show get_next_matchup (applyVote fourR5.player_rankings ⟨"A", "D", "A"⟩)
      (votesPairs vs6) fourR5.ranking_size
      (fourR5.matchups_completed + 1) = none from four_sel6]
  rfl

lemma four_chain : Relation.ReflTransGen VoteStep fourR0 fourR6 := by
  have s1 : VoteStep fourR0 fourR1 := ⟨none, "A", "s1", four_step1⟩
  have s2 : VoteStep fourR1 fourR2 := ⟨none, "C", "s2", four_step2⟩
  have s3 : VoteStep fourR2 fourR3 := ⟨none, "A", "s3", four_step3⟩
  have s4 : VoteStep fourR3 fourR4 := ⟨none, "B", "s4", four_step4⟩
  have s5 : VoteStep fourR4 fourR5 := ⟨none, "B", "s5", four_step5⟩
  have s6 : VoteStep fourR5 fourR6 := ⟨none, "A", "s6", four_step6⟩
  exact Relation.ReflTransGen.head s1 (Relation.ReflTransGen.head s2
    (Relation.ReflTransGen.head s3 (Relation.ReflTransGen.head s4
      (Relation.ReflTransGen.head s5 (Relation.ReflTransGen.single s6)))))

/-- C4 is false as stated: in a bounded 4-item session, the six accepted
pairwise votes do set `is_complete = true` exactly on the 6th vote, but a
7th attempt is rejected by the already-complete check, which the engine runs
before re-deriving a pending matchup — it fails with
`SessionAlreadyComplete`, not `NoPendingMatchup`. -/
theorem c4_counterexample :
    mkRanking [] [] ⟨10, some ["A", "B", "C", "D"], none⟩ none 2 = .ok fourR0 ∧
    submitVoteSession fourR0 none "A" "s1" = .ok fourR1 ∧
    submitVoteSession fourR1 none "C" "s2" = .ok fourR2 ∧
    submitVoteSession fourR2 none "A" "s3" = .ok fourR3 ∧
    submitVoteSession fourR3 none "B" "s4" = .ok fourR4 ∧
    submitVoteSession fourR4 none "B" "s5" = .ok fourR5 ∧
    submitVoteSession fourR5 none "A" "s6" = .ok fourR6 ∧
    fourR5.is_complete = false ∧ fourR6.is_complete = true ∧
    submitVoteSession fourR6 none "A" "s7" =
      .error .SessionAlreadyComplete ∧
    submitVoteSession fourR6 none "A" "s7" ≠
      .error .NoPendingMatchup := by
  have h7 : submitVoteSession fourR6 none "A" "s7" =
      .error .SessionAlreadyComplete := by
    rw [submitVoteSession]
    rw [if_neg (by simp [fourR6, fourState, ownerMismatch])]
    rw [if_pos (show fourR6.is_complete = true from rfl)]
  refine ⟨four_start, four_step1, four_step2, four_step3, four_step4,
    four_step5, four_step6, rfl, rfl, h7, ?_⟩
  rw [h7]
  simp

lemma dedupKeep_eq_self : ∀ {l : List PlayerId}, l.Nodup → dedupKeep l = l := by
  intro l
  induction l with
  | nil => intro _; simp [dedupKeep]
  | cons x xs ih =>
    intro h
    obtain ⟨hx, hxs⟩ := List.nodup_cons.1 h
    have hf : (xs.filter fun y => y ≠ x) = xs := by
      refine List.filter_eq_self.2 ?_
      intro a ha
      simp only [ne_eq, decide_eq_true_eq, decide_not]
      simp only [Bool.not_eq_true']
      refine decide_eq_false ?_
      intro he
      exact hx (he ▸ ha)
    calc dedupKeep (x :: xs) = x :: dedupKeep (xs.filter fun y => y ≠ x) := by
          simp [dedupKeep]
      _ = x :: dedupKeep xs := by rw [hf]
      _ = x :: xs := by rw [ih hxs]

lemma keys_eq_pool {r : Ranking} (hi : SessionInv r)
    (hnd : r.player_pool.Nodup) : keysOf r = r.player_pool :=
  hi.keys_eq.trans (dedupKeep_eq_self hnd)

lemma vote_steps_static {r0 r : Ranking}
    (h : Relation.ReflTransGen VoteStep r0 r) :
    r.player_pool = r0.player_pool ∧ r.ranking_size = r0.ranking_size ∧
      r.session_id = r0.session_id := by
  induction h with
  | refl => exact ⟨rfl, rfl, rfl⟩
  | tail _ hstep ih =>
    obtain ⟨c, w, f, hok⟩ := hstep
    obtain ⟨hp, hs, hr, _, _, _⟩ := submit_ok_static hok
    exact ⟨hp.trans ih.1, hr.trans ih.2.1, hs.trans ih.2.2⟩

lemma card_ge_of_all {keys : List PlayerId} (h : keys.Nodup)
    {c : Finset (Finset PlayerId)}
    (hall : ∀ p ∈ pairsList keys, pairF p ∈ c) :
    keys.length.choose 2 ≤ c.card := by
  have hsub : ((pairsList keys).map pairF).toFinset ⊆ c := by
    intro t ht
    obtain ⟨p, hp, rfl⟩ := List.mem_map.1 (List.mem_toFinset.1 ht)
    exact hall p hp
  calc keys.length.choose 2 = ((pairsList keys).map pairF).length := by
        rw [List.length_map, length_pairsList]
    _ = ((pairsList keys).map pairF).toFinset.card :=
        (List.toFinset_card_of_nodup (nodup_pairsF h)).symm
    _ ≤ c.card := Finset.card_le_card hsub

lemma get_next_matchup_none_inv {scores : Scores}
    {completed : Finset (Finset PlayerId)} {rsize : ℤ} {m : ℕ}
    (h : get_next_matchup scores completed rsize m = none) :
    (rsize > 0 ∧ completed.card ≥ (scores.map Prod.fst).length *
      ((scores.map Prod.fst).length - 1) / 2) ∨
    (∀ p ∈ pairsList (scores.map Prod.fst), pairF p ∈ completed) := by
  by_cases hcond : rsize > 0 ∧
      completed.card ≥ (scores.map Prod.fst).length *
        ((scores.map Prod.fst).length - 1) / 2
  · exact Or.inl hcond
  · right
    rw [show get_next_matchup scores completed rsize m =
        ((pairsList (scores.map Prod.fst)).foldl
          (updateBest scores completed) none).map Prod.fst by
      simp only [get_next_matchup, if_neg hcond]] at h
    exact ((scan_none_iff scores completed _ none).1 (Option.map_eq_none'.1 h)).2

lemma selector_none_of_card {scores : Scores}
    {completed : Finset (Finset PlayerId)} {rsize : ℤ} {m : ℕ}
    (h1 : rsize > 0)
    (h2 : completed.card ≥ (scores.map Prod.fst).length *
      ((scores.map Prod.fst).length - 1) / 2) :
    get_next_matchup scores completed rsize m = none := by
  rw [get_next_matchup]
  exact if_pos ⟨h1, h2⟩

lemma submit_ok_complete_iff {b r : Ranking} {c : Option String}
    {w : PlayerId} {f : String} (hok : submitVoteSession b c w f = .ok r) :
    r.is_complete = (get_next_matchup r.player_rankings (completedPairs r)
      r.ranking_size r.matchups_completed).isNone := by
  obtain ⟨_, _, p, _, _, rfl⟩ := submitVoteSession_ok hok
  rfl

/-- C4 (amended): in any bounded session over a duplicate-free 4-item pool,
the session is incomplete until exactly 6 votes are accepted and complete
from the 6th on: `is_complete = true` iff `matchups_completed = 6` (and no
more than 6 votes can ever be accepted); once complete, any further vote
attempt fails — with `Forbidden` for a non-owner, and with
`SessionAlreadyComplete` (not `NoPendingMatchup`, whose check comes later)
for the owner. -/
theorem c4_bounded_completion (catalog : List PlayerId)
    (lists : List CustomList) (req : StartRequest) (sid : Option String)
    (nid : ℕ) (r0 r : Ranking)
    (h0 : mkRanking catalog lists req sid nid = .ok r0)
    (hnd : r0.player_pool.Nodup) (hlen : r0.player_pool.length = 4)
    (hsz : r0.ranking_size > 0)
    (hsteps : Relation.ReflTransGen VoteStep r0 r) :
    r.matchups_completed ≤ 6 ∧
    (r.is_complete = true ↔ r.matchups_completed = 6) ∧
    (r.is_complete = true → ∀ c w f,
      submitVoteSession r c w f = .error .Forbidden ∨
      submitVoteSession r c w f = .error .SessionAlreadyComplete) ∧
    (r.is_complete = true → ∀ c w f, ownerMismatch r.session_id c = false →
      submitVoteSession r c w f = .error .SessionAlreadyComplete) := by
  have hi0 : SessionInv r0 := inv_start h0
  have hinv : SessionInv r :=
    inv_of_steps hi0 (Relation.ReflTransGen.mono (fun a b h => Or.inl h) hsteps)
  obtain ⟨hpool, hrs, _⟩ := vote_steps_static hsteps
  have hndr : r.player_pool.Nodup := hpool ▸ hnd
  have hkeys : keysOf r = r.player_pool := keys_eq_pool hinv hndr
  have hklen : (keysOf r).length = 4 := by rw [hkeys, hpool, hlen]
  have hknd : (keysOf r).Nodup := hinv.keys_nodup
  have hrsz : r.ranking_size > 0 := hrs ▸ hsz
  have hcard_le : (completedPairs r).card ≤ 6 := by
    have := card_completed_le hknd hinv.wf
    rw [hklen] at this
    exact le_trans this (by decide)
  have hm_le : r.matchups_completed ≤ 6 := hinv.count_eq ▸ hcard_le
  have hfwd : r.is_complete = true → r.matchups_completed = 6 := by
    intro hc
    rcases Relation.ReflTransGen.cases_tail hsteps with rfl | ⟨b, _, hstep⟩
    · obtain ⟨ids, _, _, _, rfl⟩ := mkRanking_ok h0
      cases hc
    · obtain ⟨c, w, f, hok⟩ := hstep
      have heq := submit_ok_complete_iff hok
      rw [hc] at heq
      have hnone : get_next_matchup r.player_rankings (completedPairs r)
          r.ranking_size r.matchups_completed = none :=
        Option.isNone_iff_eq_none.1 heq.symm
      have hc6 : 6 ≤ (completedPairs r).card := by
        rcases get_next_matchup_none_inv hnone with ⟨_, hge⟩ | hall
        · have : (r.player_rankings.map Prod.fst).length = 4 := hklen
          rw [this] at hge
          exact le_trans (by decide) hge
        · have := card_ge_of_all hknd hall
          rw [hklen] at this
          exact le_trans (by decide) this
      rw [hinv.count_eq]
      exact le_antisymm hcard_le hc6
  have hbwd : r.matchups_completed = 6 → r.is_complete = true := by
    intro hm
    rcases Relation.ReflTransGen.cases_tail hsteps with rfl | ⟨b, _, hstep⟩
    · obtain ⟨ids, _, _, _, rfl⟩ := mkRanking_ok h0
      cases hm
    · obtain ⟨c, w, f, hok⟩ := hstep
      rw [submit_ok_complete_iff hok]
      have hsel : get_next_matchup r.player_rankings (completedPairs r)
          r.ranking_size r.matchups_completed = none := by
        refine selector_none_of_card hrsz ?_
        rw [show (r.player_rankings.map Prod.fst).length = 4 from hklen,
          ← hinv.count_eq, hm]
      rw [hsel]
      rfl
  refine ⟨hm_le, ⟨hfwd, hbwd⟩, ?_, ?_⟩
  · intro hc c w f
    cases hmm : ownerMismatch r.session_id c with
    | true =>
      left
      rw [submitVoteSession, if_pos hmm]
    | false =>
      right
      rw [submitVoteSession, if_neg (by simp [hmm]), if_pos hc]
  · intro hc c w f hmm
    rw [submitVoteSession, if_neg (by simp [hmm]), if_pos hc]

/-- Witness for C2 at a concrete three-item ratings map with no completed
pairs. -/
theorem c2_matchup_selector_witness :
    (c2scores.map Prod.fst).Nodup ∧
    (∀ t ∈ (∅ : Finset (Finset PlayerId)), ∃ a b,
      a ∈ c2scores.map Prod.fst ∧ b ∈ c2scores.map Prod.fst ∧ a ≠ b ∧
      t = {a, b}) ∧
    selectorSpec c2scores ∅ 10 0 :=
  ⟨by decide, by simp, c2_matchup_selector c2scores ∅ 10 0 (by decide) (by simp)⟩

/-- Witness for C4 on the concrete 6-vote run of the 4-player session. -/
theorem c4_bounded_completion_witness :
    (mkRanking [] [] ⟨10, some ["A", "B", "C", "D"], none⟩ none 2 =
        .ok fourR0 ∧
      fourR0.player_pool.Nodup ∧ fourR0.player_pool.length = 4 ∧
      fourR0.ranking_size > 0 ∧
      Relation.ReflTransGen VoteStep fourR0 fourR6) ∧
    (fourR6.matchups_completed ≤ 6 ∧
      (fourR6.is_complete = true ↔ fourR6.matchups_completed = 6) ∧
      (fourR6.is_complete = true → ∀ c w f,
        submitVoteSession fourR6 c w f = .error .Forbidden ∨
        submitVoteSession fourR6 c w f = .error .SessionAlreadyComplete) ∧
      (fourR6.is_complete = true → ∀ c w f,
        ownerMismatch fourR6.session_id c = false →
        submitVoteSession fourR6 c w f = .error .SessionAlreadyComplete)) :=
  ⟨⟨four_start, by decide, rfl, by decide, four_chain⟩,
    c4_bounded_completion [] [] ⟨10, some ["A", "B", "C", "D"], none⟩ none 2
      fourR0 fourR6 four_start (by decide) rfl (by decide) four_chain⟩

/-- Witness for C5 at a concrete one-session store. -/
theorem c5_vote_atomicity_witness :
    (findRanking [twoR0] 1 = none →
      submit_vote [twoR0] 1 none "A" "s1" = .error .SessionNotFound) ∧
    (∀ r, findRanking [twoR0] 1 = some r → VoteOutcomeSpec r none "A" "s1") ∧
    (∀ e, submit_vote [twoR0] 1 none "A" "s1" = .error e →
      voteTxn [twoR0] 1 none "A" "s1" = [twoR0]) ∧
    (∀ r r2, findRanking [twoR0] 1 = some r →
      submitVoteSession r none "A" "s1" = .ok r2 →
      voteTxn [twoR0] 1 none "A" "s1" =
        [twoR0].map fun s => if s.id = 1 then r2 else s) :=
  c5_vote_atomicity [twoR0] 1 none "A" "s1"

/-- Witness for C6 at the concrete reachable 2-player session after one
vote. -/
theorem c6_session_invariants_witness :
    Reachable twoR1 ∧
    (twoR1.matchups_completed = (completedPairs twoR1).card ∧
      (∀ pid ∈ twoR1.player_pool,
        (twoR1.player_rankings.map Prod.fst).count pid = 1) ∧
      (∀ r2 c w f, submitVoteSession twoR1 c w f = .ok r2 →
        r2.matchups_completed = twoR1.matchups_completed + 1 ∧
        ∃ p, p ∉ completedPairs twoR1 ∧
          completedPairs r2 = insert p (completedPairs twoR1))) :=
  ⟨two_reachable, c6_session_invariants twoR1 two_reachable⟩

/-- Witness for C7 at the concrete reachable 2-player session after one
vote. -/
theorem c7_replay_round_trip_witness :
    Reachable twoR1 ∧
    replayVotes (initScores twoR1.player_pool) twoR1.votes =
      twoR1.player_rankings :=
  ⟨two_reachable, c7_replay_round_trip twoR1 two_reachable⟩

/-- Witness for C9 (amended) at a concrete request with a 2-item explicit
pool. -/
theorem c9_start_validation_witness :
    ((10 : ℤ) ∈ ([0, 10, 50, 100] : List ℤ) ∧
      resolve_pool [] [] ⟨10, some ["A", "B"], none⟩ = .ok ["A", "B"]) ∧
    ((["A", "B"] : List PlayerId).length < 2 →
      mkRanking [] [] ⟨10, some ["A", "B"], none⟩ none 3 =
        .error .InvalidPool) ∧
    (2 ≤ (["A", "B"] : List PlayerId).length →
      mkRanking [] [] ⟨10, some ["A", "B"], none⟩ none 3 = .ok
        { id := 3, session_id := none, ranking_size := (10 : ℤ),
          player_rankings := initScores ["A", "B"],
          player_pool := ["A", "B"], is_complete := false,
          matchups_completed := 0,
          total_matchups := if (10 : ℤ) > 0 then
            some ((["A", "B"] : List PlayerId).length *
              ((["A", "B"] : List PlayerId).length - 1) / 2) else none,
          share_slug := none, votes := [] }) :=
  ⟨⟨by decide, rfl⟩,
    (c9_start_validation [] [] ⟨10, some ["A", "B"], none⟩ none 3 ["A", "B"]
      (by decide) rfl).1,
    (c9_start_validation [] [] ⟨10, some ["A", "B"], none⟩ none 3 ["A", "B"]
      (by decide) rfl).2⟩

/-- Witness for C10 at a concrete valid create request. -/
theorem c10_custom_list_bounds_witness :
    (∀ cl, create_custom_list ["A", "B"] ⟨"l", none, ["A", "B"], false⟩
        none "c" 1 = .ok cl →
      2 ≤ cl.player_ids.length ∧ cl.player_ids.length ≤ 200) ∧
    ((["A", "B"] : List PlayerId).length < 2 →
      create_custom_list ["A", "B"] ⟨"l", none, ["A", "B"], false⟩
        none "c" 1 = .error .TooFew) ∧
    ((["A", "B"] : List PlayerId).length > 200 →
      create_custom_list ["A", "B"] ⟨"l", none, ["A", "B"], false⟩
        none "c" 1 = .error .TooMany) ∧
    (∀ (catalog : List PlayerId) (lists : List CustomList)
        (req2 : StartRequest) (ids : List PlayerId),
      (∀ cl ∈ lists, 2 ≤ cl.player_ids.length ∧ cl.player_ids.length ≤ 200) →
      truthyStr req2.custom_list_code = true →
      resolve_pool catalog lists req2 = .ok ids →
      2 ≤ ids.length ∧ ids.length ≤ 200) :=
  c10_custom_list_bounds ["A", "B"] ⟨"l", none, ["A", "B"], false⟩ none "c" 1

/-- C1: the Rating Model is the pure function `compute_elo_update` computing
the logistic expected score and the k-weighted update; in particular
`compute_elo_update 1500 1500` (with the default `k = 32`) returns `(1516,
1484)`. -/
theorem c1_rating_model :
    (∀ w l k : ℝ, compute_elo_update w l k =
      (w + k * (1 - 1 / (1 + (10 : ℝ) ^ ((l - w) / 400))),
       l + k * (0 - (1 - 1 / (1 + (10 : ℝ) ^ ((l - w) / 400)))))) ∧
    compute_elo_update 1500 1500 = (1516, 1484) := by
  constructor
  · intro w l k
    rfl
  · have h0 : ((1500 : ℝ) - 1500) / 400 = 0 := by norm_num
    simp only [compute_elo_update, h0, Real.rpow_zero]
    norm_num
